import Mathlib

/-!
# Verification of DataSink's transfer engine (`src/core.py`)

This file is a shallow embedding, in Lean 4, of the two functions that make up
the DataSink transfer engine:

* `is_safe_path(path)`  (core.py lines 18-50)
* `sync_data(source_path, destination_path, operation)`  (core.py lines 53-129)

## The filesystem model

The embedding models a POSIX filesystem without symbolic links, as a flat
finite map: a list of existing directories and a list of (file, content)
pairs, every path being the list of its components of an absolute canonical
path (the root `/` is the empty list and is always a directory).  The process
environment carries the user's home directory and the current working
directory as component lists; both are assumed to be given in canonical form
(on Linux `os.getcwd()` always returns a canonical absolute path).  The
current working directory may have been deleted from the filesystem while
the process keeps running: this is the real situation in which `os.getcwd()`
raises `FileNotFoundError`, and the model reproduces it through `pyCwd`.

Python exceptions are modelled by the type `PyExc`; every constructor stands
for a subclass of `OSError` (`FileNotFoundError`, `NotADirectoryError`,
generic `OSError`, and `shutil.Error` which the standard library declares as
`class Error(OSError)`); `shutil.SameFileError` is a subclass of
`shutil.Error`.  `RuntimeError` (legacy symlink-loop reporting) and
`ValueError` (paths with embedded NUL bytes) cannot arise in a model without
symlinks and with component lists instead of raw byte strings, so they have
no constructor; the places which catch them in the source are annotated
below.

Canonicalization:

* `resolveStrict` models `Path.resolve(strict=True)` = `os.path.realpath`
  with `strict=True`: components are processed left to right, `..` is
  dropped textually (realpath pops `..` without a stat), every other
  component is `lstat`-ed, a missing one raises `FileNotFoundError` and a
  traversal through a plain file raises `NotADirectoryError`.
* `pyAbspath` models `os.path.abspath` = `normpath(join(cwd, path))`:
  a purely textual absolute join, no resolution, no existence requirement;
  for a relative path it needs `os.getcwd()` which can raise
  `FileNotFoundError` when the working directory was deleted.
* `resolveNS` models `Path.resolve()` (non-strict).  Without symlinks a
  non-strict `realpath` performs exactly the textual normalization of the
  absolute join, and never raises for a merely missing path (this matches
  the repository's own test `test_self_copy_check_with_nonexistent_dest`);
  like `abspath` it needs `getcwd` for relative inputs.
* `statWalk`/`pyStat` model what the kernel does for `os.stat` (hence
  `Path.exists` / `is_dir` / `is_file`, which swallow `OSError`): every
  intermediate component must be an existing directory, `..` needs a
  traversable directory, and the walk starts from the cwd for relative
  paths.

The `shutil` operations are modelled after the CPython implementations:

* `copytreeM` (`shutil.copytree(..., dirs_exist_ok=True)`): merges into an
  existing destination tree, overwriting files; it raises `shutil.Error`
  when a per-entry copy fails, which in this model happens when source and
  destination coincide (`SameFileError` per file, as when a directory is
  copied into its own parent) or when a file/directory type conflict exists
  between the trees.  The model applies the whole tree copy as a snapshot;
  it is only used, in theorems, on source/destination pairs where neither
  path is a proper ancestor of the other, which is exactly where the real
  iterative `copytree` behaves like a snapshot.
* `rmtreeM` (`shutil.rmtree`): removes a directory subtree; raises
  `NotADirectoryError` on a non-directory.
* `moveM` (`shutil.move(src, dst)` with `dst` an existing directory):
  computes `real_dst = dst/basename(src)`, raises `shutil.Error` if
  `real_dst` exists, raises `FileNotFoundError` (from `os.rename`, whose
  fallback copy also fails) if `src` is gone, otherwise relocates the tree.
* `copy2M` (`shutil.copy2(file, dstdir)`): copies into the directory,
  raising `SameFileError` when source and target are the same path,
  `IsADirectoryError` when the target exists as a directory, and
  overwriting an existing plain file.

`mainAction` is the body of the `try:` at core.py lines 91-124 together
with the `except (shutil.Error, OSError)` handler at lines 126-129: since
every exception the operations above can produce is an `OSError` (see the
note on `PyExc`), the handler is folded into the branches, which is why
`mainAction` is total.  The exits that can actually propagate an exception
to the caller are kept explicit: `is_safe_path` re-raising from inside its
`except` handler, and the self-containment check's `except FileNotFoundError`
letting other exception types through.
-/

namespace DataSink

/-- A canonical absolute path, as its list of components; `[]` is the root. -/
abbrev Comps := List String

/-- A component in canonical form: not empty, not `.`, not `..`. -/
def goodComp (c : String) : Bool := c != "" && c != "." && c != ".."

/-- All components of the list are canonical. -/
def goodComps (l : Comps) : Bool := l.all goodComp

/-- The filesystem: existing directories and regular files with contents.
The root `[]` is implicitly always a directory. -/
structure FS where
  dirs : List Comps
  files : List (Comps × String)
deriving Repr, DecidableEq

/-- Directory existence in the flat map (the root always exists). -/
def isDirFS (fs : FS) (p : Comps) : Bool := p.isEmpty || fs.dirs.contains p

/-- File existence in the flat map. -/
def isFileFS (fs : FS) (p : Comps) : Bool := fs.files.any (fun e => e.1 == p)

/-- Content of the file at `p`, if any. -/
def lookupFile (fs : FS) (p : Comps) : Option String :=
  (fs.files.find? (fun e => e.1 == p)).map (fun e => e.2)

/-- Well-formedness of the flat filesystem map: every entry is a non-root
canonical path whose parent is a directory, no path is both a file and a
directory, and file keys are unique. -/
def FS.Wf (fs : FS) : Prop :=
  (∀ p ∈ fs.dirs, p ≠ [] ∧ goodComps p = true ∧ isDirFS fs p.dropLast = true) ∧
  (∀ e ∈ fs.files, e.1 ≠ [] ∧ goodComps e.1 = true ∧ isDirFS fs e.1.dropLast = true ∧
    e.1 ∉ fs.dirs) ∧
  (fs.files.map (fun e => e.1)).Nodup

instance (fs : FS) : Decidable fs.Wf := by
  unfold FS.Wf; infer_instance

/-- The process environment: the user's home directory and the current
working directory, both as canonical absolute component lists.  The cwd may
have been deleted from the filesystem after the process started. -/
structure Env where
  home : Comps
  cwd : Comps
deriving Repr, DecidableEq

/-- The environment is ordinary: home and cwd are canonical and both still
exist as directories. -/
def EnvOk (fs : FS) (env : Env) : Prop :=
  goodComps env.home = true ∧ goodComps env.cwd = true ∧
  isDirFS fs env.home = true ∧ isDirFS fs env.cwd = true

instance (fs : FS) (env : Env) : Decidable (EnvOk fs env) := by
  unfold EnvOk; infer_instance

/-- The Python exceptions the embedded code can raise.  Every constructor
models a subclass of `OSError`: `shutil.Error` is declared in the standard
library as `class Error(OSError)` and `shutil.SameFileError` as a subclass
of it. -/
inductive PyExc where
  | fileNotFound (msg : String)
  | notADir (msg : String)
  | oserror (msg : String)
  | shutilErr (msg : String)
deriving Repr, DecidableEq

/-- Is the exception a `FileNotFoundError`? -/
def PyExc.isFNF : PyExc → Bool
  | .fileNotFound _ => true
  | _ => false

/-- The `str()` of the exception, as interpolated into messages. -/
def PyExc.text : PyExc → String
  | .fileNotFound m => m
  | .notADir m => m
  | .oserror m => m
  | .shutilErr m => m

/-- A `pathlib.Path` value: absolute or relative, with its parsed components
(`pathlib` drops empty components and `.` at parse time and keeps `..`). -/
structure PyPath where
  isAbs : Bool
  comps : Comps
deriving Repr, DecidableEq

/-- Split on `/` at the character level (structurally recursive rendering
of `str.split('/')`, so that concrete inputs evaluate inside the kernel). -/
def splitSlash : List Char → List (List Char)
  | [] => [[]]
  | c :: rest =>
    if c = '/' then [] :: splitSlash rest
    else
      match splitSlash rest with
      | [] => [[c]]
      | g :: gs => (c :: g) :: gs

/-- `Path(s)`: parse a string, dropping empty components and `.`. -/
def parsePath (s : String) : PyPath :=
  ⟨s.data.head? == some '/',
   ((splitSlash s.data).map (fun l => String.mk l)).filter (fun c => c != "" && c != ".")⟩

/-- `str(Path(...))`: the normalized textual form pathlib prints. -/
def pstr (p : PyPath) : String :=
  if p.isAbs then "/" ++ String.intercalate "/" p.comps
  else if p.comps.isEmpty then "." else String.intercalate "/" p.comps

/-- `Path.name`: the final component, `""` when there is none. -/
def pyName (p : PyPath) : String := (p.comps.getLast?).getD ""

/-- `os.getcwd()`: returns the (canonical) cwd, raising `FileNotFoundError`
when the working directory has been deleted. -/
def pyCwd (fs : FS) (env : Env) : Except PyExc Comps :=
  if isDirFS fs env.cwd then .ok env.cwd
  else .error (.fileNotFound "[Errno 2] No such file or directory (getcwd)")

/-- Strict `realpath` component walk: `..` pops textually without a stat,
any other component is stat-ed; missing raises `FileNotFoundError`,
traversing through a plain file raises `NotADirectoryError`. -/
def walkStrict (fs : FS) : Comps → List String → Except PyExc Comps
  | acc, [] => .ok acc
  | acc, c :: rest =>
    if c == ".." then walkStrict fs acc.dropLast rest
    else if isFileFS fs acc then .error (.notADir (pstr ⟨true, acc⟩))
    else if isDirFS fs (acc ++ [c]) || isFileFS fs (acc ++ [c]) then
      walkStrict fs (acc ++ [c]) rest
    else .error (.fileNotFound (pstr ⟨true, acc ++ [c]⟩))

/-- `Path.resolve(strict=True)`: strict canonicalization; a relative path
starts from `getcwd`. -/
def resolveStrict (fs : FS) (env : Env) (p : PyPath) : Except PyExc Comps :=
  match (if p.isAbs then .ok [] else pyCwd fs env : Except PyExc Comps) with
  | .error e => .error e
  | .ok start => walkStrict fs start p.comps

/-- Purely textual normalization of components against an absolute base:
`..` pops one component (and is dropped at the root), as `os.path.normpath`
does for absolute paths. -/
def normWalk : Comps → List String → Comps
  | acc, [] => acc
  | acc, c :: rest => normWalk (if c == ".." then acc.dropLast else acc ++ [c]) rest

/-- `os.path.abspath`: `normpath(join(cwd, path))`; needs `getcwd` for a
relative path (raising `FileNotFoundError` when the cwd is gone), no
resolution and no existence requirement. -/
def pyAbspath (fs : FS) (env : Env) (p : PyPath) : Except PyExc Comps :=
  if p.isAbs then .ok (normWalk [] p.comps)
  else
    match pyCwd fs env with
    | .error e => .error e
    | .ok c => .ok (normWalk c p.comps)

/-- `Path.resolve()` (non-strict).  Without symlinks this is exactly the
textual absolute normalization, and it succeeds on merely missing paths
(the repository's test suite depends on that: a nonexistent destination is
still resolved and compared in the self-containment check). -/
def resolveNS (fs : FS) (env : Env) (p : PyPath) : Except PyExc Comps :=
  pyAbspath fs env p

/-- `Path.parents` of an absolute canonical path, as the set of its strict
ancestors (pathlib yields them nearest first; only membership is ever
used). -/
def parentsOf (p : Comps) : List Comps := p.inits.filter (fun q => q != p)

/-- The test `b in Path(a).parents or Path(a) == b` from the source. -/
def inOrEq (a b : Comps) : Bool := (parentsOf a).contains b || a == b

/-- `is_safe_path` (core.py lines 18-50).  The `try:` resolves the path, the
home directory and the cwd strictly and applies the ancestor test; on
`FileNotFoundError` (or `RuntimeError`, which this model cannot produce) the
handler redoes the test on `os.path.abspath(path)` against the raw
`Path.home()` and `Path.cwd()`; any other exception is logged and the
function returns `False` (fails closed).  Exceptions raised inside the
first handler itself (from `abspath` or `Path.cwd()` when the working
directory is gone) are not caught by a sibling handler and propagate. -/
def is_safe_path (fs : FS) (env : Env) (path : PyPath) : Except PyExc Bool :=
  match (do
    let a ← resolveStrict fs env path
    let h ← resolveStrict fs env ⟨true, env.home⟩
    let c0 ← pyCwd fs env
    let c ← resolveStrict fs env ⟨true, c0⟩
    pure (inOrEq a h || inOrEq a c) : Except PyExc Bool) with
  | .ok b => .ok b
  | .error e =>
    if e.isFNF then
      match pyAbspath fs env path with
      | .error e2 => .error e2
      | .ok a =>
        match pyCwd fs env with
        | .error e3 => .error e3
        | .ok c => .ok (inOrEq a env.home || inOrEq a c)
    else .ok false

/-- Kernel path walk for `os.stat`: every intermediate must be a
traversable directory (`..` included), the result tells whether the final
node is a directory (`some true`), a file (`some false`) or missing
(`none`). -/
def statWalk (fs : FS) : Comps → List String → Option Bool
  | acc, [] =>
    if isDirFS fs acc then some true
    else if isFileFS fs acc then some false
    else none
  | acc, c :: rest =>
    if isDirFS fs acc then
      statWalk fs (if c == ".." then acc.dropLast else acc ++ [c]) rest
    else none

/-- `os.stat` through `pathlib`, swallowing `OSError`: type of the node at
`p`, resolved by the kernel (relative paths start at the process cwd). -/
def pyStat (fs : FS) (env : Env) (p : PyPath) : Option Bool :=
  statWalk fs (if p.isAbs then [] else env.cwd) p.comps

/-- `Path.exists()`. -/
def pyExists (fs : FS) (env : Env) (p : PyPath) : Bool := (pyStat fs env p).isSome

/-- `Path.is_dir()`. -/
def pyIsDir (fs : FS) (env : Env) (p : PyPath) : Bool := pyStat fs env p == some true

/-- `Path.is_file()`. -/
def pyIsFile (fs : FS) (env : Env) (p : PyPath) : Bool := pyStat fs env p == some false

/-- The self-containment check (core.py lines 72-79): resolve source then
destination non-strictly and test `source in destination.parents or source
== destination`; `except FileNotFoundError: pass` makes a resolution
failure of that type skip the check (report not-nested), while any other
exception would propagate. -/
def selfCheck (fs : FS) (env : Env) (source destination : PyPath) : Except PyExc Bool :=
  match resolveNS fs env source with
  | .error e => if e.isFNF then .ok false else .error e
  | .ok rs =>
    match resolveNS fs env destination with
    | .error e => if e.isFNF then .ok false else .error e
    | .ok rd => .ok (inOrEq rd rs)

/-- Kernel-style absolute form used by the effectful operations (they run
after the guards, on paths whose traversals exist). -/
def opsAbs (env : Env) (p : PyPath) : Comps :=
  normWalk (if p.isAbs then [] else env.cwd) p.comps

/-- `Path.mkdir(parents=True, exist_ok=True)`: creates the whole chain,
failing with an `OSError` when the working directory is gone (relative
path) or when some prefix of the target exists as a plain file. -/
def mkdirP (fs : FS) (env : Env) (p : PyPath) : Except PyExc FS :=
  if !p.isAbs && !(isDirFS fs env.cwd) then
    .error (.fileNotFound "[Errno 2] No such file or directory")
  else if (opsAbs env p).inits.any (fun q => isFileFS fs q) then
    .error (.oserror "[Errno 17] File exists")
  else .ok ⟨fs.dirs ++ (opsAbs env p).inits.filter (fun q => !(isDirFS fs q)), fs.files⟩

/-- Destination preparation (core.py lines 82-89): create the destination
directory unless it already is one. -/
def prepare (fs : FS) (env : Env) (destination : PyPath) : Except PyExc FS :=
  if pyIsDir fs env destination then .ok fs else mkdirP fs env destination

/-- The suffix of `p` below `base`, when `base` is a prefix. -/
def relTo (base p : Comps) : Option Comps :=
  if base.isPrefixOf p then some (p.drop base.length) else none

/-- The condition under which `shutil.copytree(src, dst,
dirs_exist_ok=True)` raises (`shutil.Error` collecting per-entry failures):
source and destination are the same tree and it contains at least one file
(every `copy2` raises `SameFileError`), or a source file's target exists as
a directory (`IsADirectoryError` from `copy2`), or a source directory's
target exists as a plain file (`FileExistsError` from `makedirs`). -/
def copytreeErr (fs : FS) (src dst : Comps) : Bool :=
  (src == dst && fs.files.any (fun e => src.isPrefixOf e.1)) ||
  fs.files.any (fun e =>
    match relTo src e.1 with
    | some s => isDirFS fs (dst ++ s)
    | none => false) ||
  fs.dirs.any (fun d =>
    match relTo src d with
    | some s => isFileFS fs (dst ++ s)
    | none => false)

/-- The state after `copytree(src, dst, dirs_exist_ok=True)`: `dst` and the
image of every source directory are added, files under `dst` that have a
source counterpart are overwritten by it, all other files are kept (merge
policy). -/
def ctApply (fs : FS) (src dst : Comps) : FS :=
  ⟨dst :: fs.dirs ++ fs.dirs.filterMap (fun d => (relTo src d).map (fun s => dst ++ s)),
   fs.files.filter (fun e =>
      match relTo dst e.1 with
      | some s => !(isFileFS fs (src ++ s))
      | none => true)
    ++ fs.files.filterMap (fun e => (relTo src e.1).map (fun s => (dst ++ s, e.2)))⟩

/-- `shutil.copytree(src, dst, dirs_exist_ok=True)`. -/
def copytreeM (fs : FS) (src dst : Comps) : FS × Option PyExc :=
  if copytreeErr fs src dst then
    (ctApply fs src dst, some (.shutilErr "errors collected while copying the tree"))
  else (ctApply fs src dst, none)

/-- `shutil.rmtree`: removes the subtree rooted at a directory; raises
`NotADirectoryError` on anything else. -/
def rmtreeM (fs : FS) (p : Comps) : FS × Option PyExc :=
  if isDirFS fs p && !p.isEmpty then
    (⟨fs.dirs.filter (fun d => !(p.isPrefixOf d)),
      fs.files.filter (fun e => !(p.isPrefixOf e.1))⟩, none)
  else (fs, some (.notADir "[Errno 20] Not a directory"))

/-- The pure relocation of the subtree rooted at `src` to `target`:
everything under `src` disappears and reappears under `target`. -/
def relocFS (fs : FS) (src target : Comps) : FS :=
  ⟨fs.dirs.filter (fun d => !(src.isPrefixOf d))
      ++ fs.dirs.filterMap (fun d => (relTo src d).map (fun s => target ++ s)),
   fs.files.filter (fun e => !(src.isPrefixOf e.1))
      ++ fs.files.filterMap (fun e => (relTo src e.1).map (fun s => (target ++ s, e.2)))⟩

/-- `shutil.move(src, dstDir)` with `dstDir` an existing directory: the
real target is `dstDir/basename(src)`; `shutil.Error` if the target
exists, `FileNotFoundError` if the source is gone (from `os.rename` and
its copy fallback), otherwise the subtree is relocated. -/
def moveM (fs : FS) (src dstDir : Comps) (basename : String) : FS × Option PyExc :=
  if isDirFS fs (dstDir ++ [basename]) || isFileFS fs (dstDir ++ [basename]) then
    (fs, some (.shutilErr ("Destination path '" ++ pstr ⟨true, dstDir ++ [basename]⟩ ++
      "' already exists")))
  else if !(isDirFS fs src || isFileFS fs src) then
    (fs, some (.fileNotFound "[Errno 2] No such file or directory"))
  else
    (relocFS fs src (dstDir ++ [basename]), none)

/-- `shutil.copy2(srcFile, dstDir)` with `dstDir` an existing directory:
the target is `dstDir/basename(src)`; `SameFileError` when the target is
the source itself, `IsADirectoryError` when the target is a directory,
otherwise the file is copied, overwriting an existing plain file. -/
def copy2M (fs : FS) (src dstDir : Comps) (basename : String) : FS × Option PyExc :=
  if dstDir ++ [basename] == src then
    (fs, some (.shutilErr "are the same file"))
  else if isDirFS fs (dstDir ++ [basename]) then
    (fs, some (.oserror "[Errno 21] Is a directory"))
  else
    match lookupFile fs src with
    | none => (fs, some (.fileNotFound "[Errno 2] No such file or directory"))
    | some content =>
      (⟨fs.dirs, fs.files.filter (fun e => !(e.1 == dstDir ++ [basename]))
        ++ [(dstDir ++ [basename], content)]⟩, none)

/-- Message of the `SourceNotFound` failure (core.py line 62): note that it
interpolates `source = Path(source_path)`, i.e. the normalized
`str(Path(...))`, not the raw input string. -/
def msgNotExist (source : PyPath) : String :=
  "Error: Source path '" ++ pstr source ++ "' does not exist."

/-- Message of the `UnsafeDestination` failure (core.py line 67). -/
def msgUnsafe (destination : PyPath) : String :=
  "Error: Destination path '" ++ pstr destination ++
    "' is outside of the allowed directories (your home directory or current working directory)."

/-- Message of the `SelfNesting` failure (core.py line 74): fixed text, no
paths interpolated. -/
def msgSelfNest : String :=
  "Error: Cannot copy or move a directory into itself or a subdirectory."

/-- Message of the `DestinationCreateFailed` failure (core.py line 87). -/
def msgMkdirFail (destination : PyPath) (e : PyExc) : String :=
  "Error: Could not create destination directory '" ++ pstr destination ++
    "'. Reason: " ++ e.text

/-- Success message of a directory copy (core.py line 96). -/
def msgCopiedDir (source destDir : PyPath) : String :=
  "Successfully copied directory '" ++ pstr source ++ "' to '" ++ pstr destDir ++ "'."

/-- Success message of a directory move (core.py line 101). -/
def msgMovedDir (source destination : PyPath) : String :=
  "Successfully moved directory '" ++ pstr source ++ "' to '" ++ pstr destination ++ "'."

/-- Message of an invalid operation on a directory (core.py line 103). -/
def msgInvalidOpDir (operation : String) : String :=
  "Invalid operation '" ++ operation ++ "' specified for directory."

/-- Success message of a file copy (core.py line 110). -/
def msgCopiedFile (source destination : PyPath) : String :=
  "Successfully copied file '" ++ pstr source ++ "' to '" ++ pstr destination ++ "'."

/-- Success message of a file move (core.py line 113). -/
def msgMovedFile (source destination : PyPath) : String :=
  "Successfully moved file '" ++ pstr source ++ "' to '" ++ pstr destination ++ "'."

/-- Message of an invalid operation on a file (core.py line 115). -/
def msgInvalidOpFile (operation : String) : String :=
  "Invalid operation '" ++ operation ++ "' specified for file."

/-- Message of the `UnsupportedSourceType` failure (core.py line 119). -/
def msgNotFileOrDir (source : PyPath) : String :=
  "Error: Source path '" ++ pstr source ++ "' is not a file or directory."

/-- Message of the `TransferFailed` failure (core.py line 127): names the
operation and interpolates the underlying exception text verbatim. -/
def msgOpError (operation : String) (e : PyExc) : String :=
  "An error occurred during the '" ++ operation ++ "' operation: " ++ e.text

/-- The body of the `try:` at core.py lines 91-124 together with its
`except (shutil.Error, OSError)` handler (lines 126-129).  All operation
failures are `OSError`s in the model (see `PyExc`), so the handler makes
this total. -/
def mainAction (fs : FS) (env : Env) (source destination : PyPath) (operation : String) :
    (Bool × String) × FS :=
  if pyIsDir fs env source then
    if operation == "copy" then
      match copytreeM fs (opsAbs env source) (opsAbs env destination ++ [pyName source]) with
      | (fs', none) =>
        ((true, msgCopiedDir source ⟨destination.isAbs, destination.comps ++ [pyName source]⟩), fs')
      | (fs', some e) => ((false, msgOpError operation e), fs')
    else if operation == "move" then
      match (if pyExists fs env ⟨destination.isAbs, destination.comps ++ [pyName source]⟩ then
          rmtreeM fs (opsAbs env destination ++ [pyName source]) else (fs, none)) with
      | (fs2, some e) => ((false, msgOpError operation e), fs2)
      | (fs2, none) =>
        match moveM fs2 (opsAbs env source) (opsAbs env destination) (pyName source) with
        | (fs3, none) => ((true, msgMovedDir source destination), fs3)
        | (fs3, some e) => ((false, msgOpError operation e), fs3)
    else ((false, msgInvalidOpDir operation), fs)
  else if pyIsFile fs env source then
    if operation == "copy" then
      match copy2M fs (opsAbs env source) (opsAbs env destination) (pyName source) with
      | (fs', none) => ((true, msgCopiedFile source destination), fs')
      | (fs', some e) => ((false, msgOpError operation e), fs')
    else if operation == "move" then
      match moveM fs (opsAbs env source) (opsAbs env destination) (pyName source) with
      | (fs', none) => ((true, msgMovedFile source destination), fs')
      | (fs', some e) => ((false, msgOpError operation e), fs')
    else ((false, msgInvalidOpFile operation), fs)
  else ((false, msgNotFileOrDir source), fs)

/-- `sync_data` (core.py lines 53-129): guards in order (existence, safety,
self-containment, destination preparation), then the dispatched operation.
A `.error` result models an exception propagating to the caller. -/
def sync_data (fs : FS) (env : Env) (source_path destination_path : String)
    (operation : String) : Except PyExc ((Bool × String) × FS) :=
  let source := parsePath source_path
  let destination := parsePath destination_path
  if !(pyExists fs env source) then .ok ((false, msgNotExist source), fs)
  else
    match is_safe_path fs env destination with
    | .error e => .error e
    | .ok safe =>
      if !safe then .ok ((false, msgUnsafe destination), fs)
      else
        match selfCheck fs env source destination with
        | .error e => .error e
        | .ok nested =>
          if nested then .ok ((false, msgSelfNest), fs)
          else
            match prepare fs env destination with
            | .error e => .ok ((false, msgMkdirFail destination e), fs)
            | .ok fs1 => .ok (mainAction fs1 env source destination operation)

/-- Success flag of a run, when no exception escaped. -/
def resOk? (r : Except PyExc ((Bool × String) × FS)) : Option Bool :=
  match r with
  | .ok v => some v.1.1
  | .error _ => none

/-- Message of a run, when no exception escaped. -/
def resMsg? (r : Except PyExc ((Bool × String) × FS)) : Option String :=
  match r with
  | .ok v => some v.1.2
  | .error _ => none

/-- Final filesystem of a run, when no exception escaped. -/
def resFS? (r : Except PyExc ((Bool × String) × FS)) : Option FS :=
  match r with
  | .ok v => some v.2
  | .error _ => none

/-- Substring test (used to state what a message does or does not
mention). -/
def strContains (hay needle : String) : Bool :=
  hay.toList.tails.any (fun t => needle.toList.isPrefixOf t)

/-- Spec-side safety predicate, transcribed from claim C1: the canonical
absolute form of the path equals the home directory or the cwd or is a
strict descendant of one of them (for component lists of canonical absolute
paths, "equals or is a strict descendant of `b`" is exactly "`b` is a
prefix"); when canonicalization fails because the path or an ancestor does
not exist, the same ancestor test is applied to the non-strict absolute
join.  Under `EnvOk` the canonical forms of the two roots are `env.home`
and `env.cwd` themselves. -/
def safeSpecC1 (fs : FS) (env : Env) (p : PyPath) : Bool :=
  match resolveStrict fs env p with
  | .ok a => env.home.isPrefixOf a || env.cwd.isPrefixOf a
  | .error e =>
    if e.isFNF then
      match pyAbspath fs env p with
      | .ok a => env.home.isPrefixOf a || env.cwd.isPrefixOf a
      | .error _ => false
    else false

/-- The shapes a failure message of `sync_data` can take (claim C9): each
failure kind names what its format string interpolates. -/
def failShape (source destination : PyPath) (operation : String) (m : String) : Prop :=
  m = msgNotExist source ∨ m = msgUnsafe destination ∨ m = msgSelfNest ∨
  (∃ e, m = msgMkdirFail destination e) ∨ m = msgInvalidOpDir operation ∨
  m = msgInvalidOpFile operation ∨ m = msgNotFileOrDir source ∨
  (∃ e, m = msgOpError operation e)

/-- Extensional equality of filesystems: same directories and same file
contents everywhere. -/
def FSequiv (a b : FS) : Prop :=
  (∀ p, isDirFS a p = isDirFS b p) ∧ (∀ p, lookupFile a p = lookupFile b p)

end DataSink
namespace DataSink

/-- Witness fixture: home `/h` = cwd, directories `/h/d`, `/h/d/s`, `/h/dd`
and `/etc`, a file `/h/d/s/f.txt` and a file `/etc/pw` outside the safety
boundary. -/
def fsW : FS :=
  ⟨[["h"], ["h","d"], ["h","d","s"], ["h","dd"], ["etc"]],
   [(["h","d","s","f.txt"], "x"), (["etc","pw"], "secret")]⟩

/-- Witness fixture environment: home and cwd are both `/h`. -/
def envW : Env := ⟨["h"], ["h"]⟩

/-- Witness fixture for the directory move: like `fsW` but the destination
`/h/dd` already contains a subdirectory `s` holding `old.txt`. -/
def fsW6 : FS :=
  ⟨[["h"], ["h","d"], ["h","d","s"], ["h","dd"], ["h","dd","s"], ["etc"]],
   [(["h","d","s","f.txt"], "x"), (["h","dd","s","old.txt"], "o"), (["etc","pw"], "secret")]⟩

/-- Environment whose current working directory `/gone` has been deleted
from the filesystem. -/
def envGone : Env := ⟨["h"], ["gone"]⟩

end DataSink

namespace DataSink

theorem mem_parentsOf {a b : Comps} : b ∈ parentsOf a ↔ b <+: a ∧ b ≠ a := by
  simp [parentsOf, List.mem_filter, List.mem_inits, bne_iff_ne]

theorem inOrEq_iff {a b : Comps} : inOrEq a b = true ↔ b <+: a := by
  unfold inOrEq
  rw [Bool.or_eq_true, List.contains_iff_exists_mem_beq]
  constructor
  · rintro (⟨x, hx, hb⟩ | h)
    · have hbx : b = x := by simpa using hb
      subst hbx
      exact (mem_parentsOf.1 hx).1
    · have hab : a = b := by simpa using h
      subst hab
      exact List.prefix_refl _
  · intro h
    by_cases he : b = a
    · right
      simp [he]
    · left
      exact ⟨b, mem_parentsOf.2 ⟨h, he⟩, by simp⟩

theorem inOrEq_eq (a b : Comps) : inOrEq a b = b.isPrefixOf a := by
  by_cases h : b <+: a
  · rw [inOrEq_iff.2 h]
    exact (List.isPrefixOf_iff_prefix.2 h).symm
  · have h1 : inOrEq a b = false := by
      cases hq : inOrEq a b
      · rfl
      · exact absurd (inOrEq_iff.1 hq) h
    have h2 : b.isPrefixOf a = false := by
      cases hp : b.isPrefixOf a
      · rfl
      · exact absurd (List.isPrefixOf_iff_prefix.1 hp) h
    rw [h1, h2]

theorem isDirFS_iff {fs : FS} {p : Comps} : isDirFS fs p = true ↔ p = [] ∨ p ∈ fs.dirs := by
  unfold isDirFS
  rw [Bool.or_eq_true, List.isEmpty_iff, List.contains_iff_exists_mem_beq]
  constructor
  · rintro (h | ⟨x, hx, hb⟩)
    · exact Or.inl h
    · have hpx : p = x := by simpa using hb
      exact Or.inr (hpx ▸ hx)
  · rintro (h | h)
    · exact Or.inl h
    · exact Or.inr ⟨p, h, by simp⟩

theorem isFileFS_iff {fs : FS} {p : Comps} :
    isFileFS fs p = true ↔ ∃ c, (p, c) ∈ fs.files := by
  simp only [isFileFS, List.any_eq_true, beq_iff_eq]
  constructor
  · rintro ⟨e, he, rfl⟩
    exact ⟨e.2, he⟩
  · rintro ⟨c, hc⟩
    exact ⟨(p, c), hc, rfl⟩

theorem goodComps_cons {c : String} {l : Comps} :
    goodComps (c :: l) = true ↔ goodComp c = true ∧ goodComps l = true := by
  simp [goodComps, List.all_cons]

theorem goodComp_not_dots {c : String} (h : goodComp c = true) : (c == "..") = false := by
  simp only [goodComp, Bool.and_eq_true, bne_iff_ne] at h
  cases hq : (c == "..")
  · rfl
  · exact absurd (by simpa using hq) h.2

theorem wf_not_file_of_dir {fs : FS} (h : fs.Wf) {p : Comps} (hd : isDirFS fs p = true) :
    isFileFS fs p = false := by
  cases hf : isFileFS fs p
  · rfl
  · obtain ⟨c, hc⟩ := isFileFS_iff.1 hf
    rcases isDirFS_iff.1 hd with he | hm
    · exact absurd he ((h.2.1 _ hc).1)
    · exact absurd hm ((h.2.1 _ hc).2.2.2)

theorem isDir_of_dir_append {fs : FS} (h : fs.Wf) :
    ∀ (q p : Comps), isDirFS fs (p ++ q) = true → isDirFS fs p = true := by
  intro q
  induction q using List.reverseRecOn with
  | nil =>
    intro p hp
    simpa using hp
  | append_singleton q c ih =>
    intro p hp
    have h1 : isDirFS fs ((p ++ q) ++ [c]) = true := by
      rwa [← List.append_assoc] at hp
    have h2 : isDirFS fs (p ++ q) = true := by
      rcases isDirFS_iff.1 h1 with he | hm
      · exact absurd he (by simp)
      · have h3 := (h.1 _ hm).2.2
        simpa using h3
    exact ih p h2

theorem isDir_of_dir_pre {fs : FS} (h : fs.Wf) {p q : Comps} (hq : q <+: p)
    (hd : isDirFS fs p = true) : isDirFS fs q = true := by
  obtain ⟨t, rfl⟩ := hq
  exact isDir_of_dir_append h t q hd

theorem pre_dropLast {p q : Comps} (hq : q <+: p) (hne : q ≠ p) : q <+: p.dropLast := by
  obtain ⟨t, rfl⟩ := hq
  cases t with
  | nil => exact absurd (by simp) hne
  | cons x xs =>
    rw [List.dropLast_append_cons]
    exact List.prefix_append _ _

theorem isDir_of_file_strict_pre {fs : FS} (h : fs.Wf) {p q : Comps}
    (hf : isFileFS fs p = true) (hq : q <+: p) (hne : q ≠ p) : isDirFS fs q = true := by
  obtain ⟨c, hc⟩ := isFileFS_iff.1 hf
  have hdrop : isDirFS fs p.dropLast = true := (h.2.1 _ hc).2.2.1
  exact isDir_of_dir_pre h (pre_dropLast hq hne) hdrop

theorem normWalk_eq_append :
    ∀ (l : List String) (acc : Comps), goodComps l = true → normWalk acc l = acc ++ l := by
  intro l
  induction l with
  | nil =>
    intro acc _
    simp [normWalk]
  | cons c rest ih =>
    intro acc hg
    obtain ⟨hc, hrest⟩ := goodComps_cons.1 hg
    rw [normWalk, goodComp_not_dots hc]
    simp only [if_false, Bool.false_eq_true]
    rw [ih _ hrest]
    simp

theorem walkStrict_ok {fs : FS} (h : fs.Wf) :
    ∀ (l : List String) (acc : Comps), goodComps l = true →
      isDirFS fs (acc ++ l) = true → walkStrict fs acc l = .ok (acc ++ l) := by
  intro l
  induction l with
  | nil =>
    intro acc _ _
    simp [walkStrict]
  | cons c rest ih =>
    intro acc hg hd
    obtain ⟨hc, hrest⟩ := goodComps_cons.1 hg
    have hassoc : acc ++ c :: rest = (acc ++ [c]) ++ rest := by simp
    have hacc : isDirFS fs acc = true := isDir_of_dir_append h (c :: rest) acc hd
    have hacc1 : isDirFS fs (acc ++ [c]) = true := by
      rw [hassoc] at hd
      exact isDir_of_dir_append h rest (acc ++ [c]) hd
    have hnf : isFileFS fs acc = false := wf_not_file_of_dir h hacc
    rw [walkStrict, goodComp_not_dots hc, hnf]
    simp only [Bool.false_eq_true, if_false, hacc1, Bool.true_or, if_true]
    rw [ih (acc ++ [c]) hrest (by rwa [hassoc] at hd)]
    rw [hassoc]

theorem resolveStrict_dir {fs : FS} {env : Env} (h : fs.Wf) {l : Comps}
    (hg : goodComps l = true) (hd : isDirFS fs l = true) :
    resolveStrict fs env ⟨true, l⟩ = .ok l := by
  unfold resolveStrict
  simp only [if_true]
  have := walkStrict_ok h l [] hg (by simpa using hd)
  simpa using this

theorem statWalk_isDir {fs : FS} :
    ∀ (l : List String) (acc : Comps), statWalk fs acc l = some true →
      isDirFS fs (normWalk acc l) = true := by
  intro l
  induction l with
  | nil =>
    intro acc hs
    rw [statWalk] at hs
    rw [normWalk]
    split at hs
    · assumption
    · split at hs <;> simp_all
  | cons c rest ih =>
    intro acc hs
    rw [statWalk] at hs
    split at hs
    · exact ih _ hs
    · simp at hs

theorem statWalk_isFile {fs : FS} :
    ∀ (l : List String) (acc : Comps), statWalk fs acc l = some false →
      isFileFS fs (normWalk acc l) = true := by
  intro l
  induction l with
  | nil =>
    intro acc hs
    rw [statWalk] at hs
    rw [normWalk]
    split at hs
    · simp_all
    · split at hs
      · assumption
      · simp_all
  | cons c rest ih =>
    intro acc hs
    rw [statWalk] at hs
    split at hs
    · exact ih _ hs
    · simp at hs

theorem statWalk_of_dir {fs : FS} (h : fs.Wf) :
    ∀ (l : List String) (acc : Comps), goodComps l = true →
      isDirFS fs (acc ++ l) = true → statWalk fs acc l = some true := by
  intro l
  induction l with
  | nil =>
    intro acc _ hd
    rw [statWalk]
    simp only [List.append_nil] at hd
    rw [hd]
    simp
  | cons c rest ih =>
    intro acc hg hd
    obtain ⟨hc, hrest⟩ := goodComps_cons.1 hg
    have hacc : isDirFS fs acc = true := isDir_of_dir_append h (c :: rest) acc hd
    rw [statWalk, hacc]
    simp only [if_true, goodComp_not_dots hc, Bool.false_eq_true, if_false]
    exact ih (acc ++ [c]) hrest (by rwa [List.append_cons] at hd)

theorem statWalk_of_file {fs : FS} (h : fs.Wf) :
    ∀ (l : List String) (acc : Comps), goodComps l = true →
      isFileFS fs (acc ++ l) = true → statWalk fs acc l = some false := by
  intro l
  induction l with
  | nil =>
    intro acc _ hf
    rw [statWalk]
    simp only [List.append_nil] at hf
    have hnd : isDirFS fs acc = false := by
      cases hd : isDirFS fs acc
      · rfl
      · rw [wf_not_file_of_dir h hd] at hf
        simp at hf
    rw [hnd, hf]
    simp
  | cons c rest ih =>
    intro acc hg hf
    obtain ⟨hc, hrest⟩ := goodComps_cons.1 hg
    have hacc : isDirFS fs acc = true := by
      refine isDir_of_file_strict_pre h hf ⟨c :: rest, rfl⟩ ?_
      intro he
      have hlen := congrArg List.length he
      simp [List.length_append] at hlen
    rw [statWalk, hacc]
    simp only [if_true, goodComp_not_dots hc, Bool.false_eq_true, if_false]
    exact ih (acc ++ [c]) hrest (by rwa [List.append_cons] at hf)

theorem statWalk_mono_dir {fs fs' : FS}
    (hmono : ∀ q, isDirFS fs q = true → isDirFS fs' q = true) :
    ∀ (l : List String) (acc : Comps), statWalk fs acc l = some true →
      statWalk fs' acc l = some true := by
  intro l
  induction l with
  | nil =>
    intro acc hs
    rw [statWalk] at hs ⊢
    split at hs
    · rw [hmono _ (by assumption)]
      simp
    · split at hs <;> simp_all
  | cons c rest ih =>
    intro acc hs
    rw [statWalk] at hs ⊢
    split at hs
    · rw [hmono _ (by assumption)]
      simp only [if_true]
      exact ih _ hs
    · simp at hs

theorem pyIsDir_iff {fs : FS} {env : Env} {p : PyPath} :
    pyIsDir fs env p = true ↔ pyStat fs env p = some true := by
  simp [pyIsDir]

theorem pyIsFile_iff {fs : FS} {env : Env} {p : PyPath} :
    pyIsFile fs env p = true ↔ pyStat fs env p = some false := by
  simp [pyIsFile]

theorem pyStat_dir_flat {fs : FS} {env : Env} {p : PyPath}
    (hs : pyStat fs env p = some true) : isDirFS fs (opsAbs env p) = true :=
  statWalk_isDir p.comps _ hs

theorem pyStat_file_flat {fs : FS} {env : Env} {p : PyPath}
    (hs : pyStat fs env p = some false) : isFileFS fs (opsAbs env p) = true :=
  statWalk_isFile p.comps _ hs

theorem pyStat_of_dir_abs {fs : FS} {env : Env} {p : PyPath} (h : fs.Wf)
    (habs : p.isAbs = true) (hg : goodComps p.comps = true)
    (hd : isDirFS fs p.comps = true) : pyStat fs env p = some true := by
  unfold pyStat
  rw [habs]
  simp only [if_true]
  exact statWalk_of_dir h p.comps [] hg (by simpa using hd)

theorem opsAbs_abs {env : Env} {p : PyPath} (habs : p.isAbs = true)
    (hg : goodComps p.comps = true) : opsAbs env p = p.comps := by
  unfold opsAbs
  rw [habs]
  simp only [if_true]
  simpa using normWalk_eq_append p.comps [] hg

end DataSink
namespace DataSink

theorem pyCwd_ok {fs : FS} {env : Env} (hc : isDirFS fs env.cwd = true) :
    pyCwd fs env = .ok env.cwd := by
  simp [pyCwd, hc]

/-- C1: for every path `p`, `is_safe_path(p)` returns true if and only if
the canonical absolute form of `p` equals the canonical home directory or
the canonical current working directory or is a strict descendant of one of
them; when canonicalization fails because `p` or an ancestor does not
exist (`FileNotFoundError`), the same ancestor test is re-applied to the
non-strict absolute join of `p` without resolving symlinks.  Stated, over a
well-formed filesystem whose home and cwd are canonical existing
directories (so their canonical forms are themselves), as: the function
returns exactly the spec-side predicate `safeSpecC1` and never raises. -/
theorem C1_is_safe_path_correct (fs : FS) (env : Env) (p : PyPath)
    (hW : fs.Wf) (hE : EnvOk fs env) :
    is_safe_path fs env p = .ok (safeSpecC1 fs env p) := by
  obtain ⟨hgh, hgc, hdh, hdc⟩ := hE
  have hhome : resolveStrict fs env ⟨true, env.home⟩ = .ok env.home :=
    resolveStrict_dir hW hgh hdh
  have hcwd0 : pyCwd fs env = .ok env.cwd := pyCwd_ok hdc
  have hcwd : resolveStrict fs env ⟨true, env.cwd⟩ = .ok env.cwd :=
    resolveStrict_dir hW hgc hdc
  unfold is_safe_path safeSpecC1
  cases hp : resolveStrict fs env p with
  | ok a =>
    simp [hp, hhome, hcwd0, hcwd, bind, Except.bind, pure, Except.pure, inOrEq_eq]
  | error e =>
    cases he : e.isFNF with
    | true =>
      cases habs : p.isAbs with
      | true =>
        simp [hp, habs, pyAbspath, bind, Except.bind, he, hcwd0, inOrEq_eq]
      | false =>
        simp [hp, habs, pyAbspath, hcwd0, bind, Except.bind, he, inOrEq_eq]
    | false =>
      simp [hp, bind, Except.bind, he]

/-- C1 witness: the hypotheses hold of the concrete fixture and the theorem
applies to the not-yet-existing destination `/h/new/x`. -/
theorem C1_witness :
    fsW.Wf ∧ EnvOk fsW envW ∧
      is_safe_path fsW envW (parsePath "/h/new/x") =
        .ok (safeSpecC1 fsW envW (parsePath "/h/new/x")) :=
  ⟨by decide, by decide,
    C1_is_safe_path_correct fsW envW (parsePath "/h/new/x") (by decide) (by decide)⟩

theorem selfNest_result (fs : FS) (env : Env) (sp dp op : String)
    (hex : pyExists fs env (parsePath sp) = true)
    (hsafe : is_safe_path fs env (parsePath dp) = .ok true)
    (rs rd : Comps)
    (hrs : resolveNS fs env (parsePath sp) = .ok rs)
    (hrd : resolveNS fs env (parsePath dp) = .ok rd)
    (hpre : rs.isPrefixOf rd = true) :
    sync_data fs env sp dp op = .ok ((false, msgSelfNest), fs) := by
  have hsc : selfCheck fs env (parsePath sp) (parsePath dp) = .ok true := by
    unfold selfCheck
    rw [hrs, hrd]
    simp [inOrEq_eq, hpre]
  unfold sync_data
  simp [hex, hsafe, hsc]

/-- C2 (amended): for every existing source S and every destination D that
passes the safety-boundary check, if the canonical form of D equals that of
S or is a descendant of it, then `sync_data` returns failure with the fixed
self-nesting message (which contains "into itself") for every operation,
and the filesystem is returned unchanged.  (As originally stated the claim
is false: an unsafe destination is rejected by the earlier safety check
with a different message, see the counterexample.) -/
theorem C2_descendant_destination_rejected (fs : FS) (env : Env)
    (sp dp op : String)
    (hex : pyExists fs env (parsePath sp) = true)
    (hsafe : is_safe_path fs env (parsePath dp) = .ok true)
    (rs rd : Comps)
    (hrs : resolveNS fs env (parsePath sp) = .ok rs)
    (hrd : resolveNS fs env (parsePath dp) = .ok rd)
    (hpre : rs.isPrefixOf rd = true) :
    sync_data fs env sp dp op = .ok ((false, msgSelfNest), fs) ∧
      strContains msgSelfNest "into itself" = true :=
  ⟨selfNest_result fs env sp dp op hex hsafe rs rd hrs hrd hpre, by decide⟩

/-- C2 witness: copying the existing `/h/d` into its genuine, safe
subdirectory `/h/d/s` is rejected with the self-nesting message. -/
theorem C2_witness :
    pyExists fsW envW (parsePath "/h/d") = true ∧
    is_safe_path fsW envW (parsePath "/h/d/s") = .ok true ∧
    (sync_data fsW envW "/h/d" "/h/d/s" "copy" = .ok ((false, msgSelfNest), fsW) ∧
      strContains msgSelfNest "into itself" = true) :=
  ⟨by rfl, by rfl,
    C2_descendant_destination_rejected fsW envW "/h/d" "/h/d/s" "copy"
      (by rfl) (by rfl) ["h","d"] ["h","d","s"] (by rfl) (by rfl) (by rfl)⟩

/-- C2 counterexample: the source `/etc` exists and the destination `/etc`
has the same canonical form, yet `sync_data` fails with the
unsafe-destination message, which does not contain "into itself": the
safety check fires before the self-containment check, so the claim as
stated (quantifying over every such destination) is false. -/
theorem C2_counterexample :
    pyExists fsW envW (parsePath "/etc") = true ∧
    resolveNS fsW envW (parsePath "/etc") = .ok ["etc"] ∧
    sync_data fsW envW "/etc" "/etc" "copy" =
      .ok ((false, msgUnsafe (parsePath "/etc")), fsW) ∧
    strContains (msgUnsafe (parsePath "/etc")) "into itself" = false :=
  ⟨by rfl, by rfl, by rfl, by decide⟩

/-- C7 (amended): for every nonexistent source path the call returns
exactly `(false, "Error: Source path '<str(Path(p))>' does not exist.")`
with the filesystem untouched — the existence check short-circuits every
later step — but the message echoes the *normalized* form `str(Path(p))`
of the input (which equals the input whenever the input is already in
normal form), not the literal input string. -/
theorem C7_missing_source (fs : FS) (env : Env) (sp dp op : String)
    (h : pyExists fs env (parsePath sp) = false) :
    sync_data fs env sp dp op =
      .ok ((false, "Error: Source path '" ++ pstr (parsePath sp) ++ "' does not exist."), fs) := by
  unfold sync_data
  simp [h, msgNotExist]

/-- C7 witness: a clean missing path is echoed literally. -/
theorem C7_witness :
    pyExists fsW envW (parsePath "/no/such/file") = false ∧
    sync_data fsW envW "/no/such/file" "/h/dd" "copy" =
      .ok ((false, "Error: Source path '" ++ pstr (parsePath "/no/such/file") ++
        "' does not exist."), fsW) :=
  ⟨by rfl, C7_missing_source fsW envW "/no/such/file" "/h/dd" "copy" (by rfl)⟩

/-- C7 counterexample: for the input `nosuch//x` the message echoes the
normalized `nosuch/x`, so the literal input path does not occur in the
message and the claim as stated is false. -/
theorem C7_counterexample :
    pyExists fsW envW (parsePath "nosuch//x") = false ∧
    sync_data fsW envW "nosuch//x" "/h/dd" "copy" =
      .ok ((false, "Error: Source path 'nosuch/x' does not exist."), fsW) ∧
    strContains "Error: Source path 'nosuch/x' does not exist." "nosuch//x" = false :=
  ⟨by rfl, by rfl, by decide⟩

theorem pyCwd_error_isFNF {fs : FS} {env : Env} {e : PyExc}
    (h : pyCwd fs env = .error e) : e.isFNF = true := by
  unfold pyCwd at h
  by_cases hc : isDirFS fs env.cwd = true
  · rw [if_pos hc] at h
    exact absurd h (by simp)
  · rw [if_neg hc] at h
    injection h with h2
    rw [← h2]
    rfl

theorem pyAbspath_error_isFNF {fs : FS} {env : Env} {p : PyPath} {e : PyExc}
    (h : pyAbspath fs env p = .error e) : e.isFNF = true := by
  unfold pyAbspath at h
  cases hab : p.isAbs
  · rw [hab] at h
    simp only [Bool.false_eq_true, if_false] at h
    cases hcw : pyCwd fs env with
    | ok c =>
      rw [hcw] at h
      exact absurd h (by simp)
    | error f =>
      rw [hcw] at h
      injection h with h2
      rw [← h2]
      exact pyCwd_error_isFNF hcw
  · rw [hab] at h
    exact absurd h (by simp)

theorem pyAbspath_total {fs : FS} {env : Env} (p : PyPath)
    (hc : isDirFS fs env.cwd = true) : ∃ a, pyAbspath fs env p = .ok a := by
  unfold pyAbspath
  cases hab : p.isAbs
  · simp [pyCwd_ok hc]
  · simp

theorem is_safe_path_total (fs : FS) (env : Env) (p : PyPath)
    (hc : isDirFS fs env.cwd = true) : ∃ b, is_safe_path fs env p = .ok b := by
  have hcw : pyCwd fs env = .ok env.cwd := pyCwd_ok hc
  obtain ⟨a0, ha0⟩ := pyAbspath_total p hc
  unfold is_safe_path
  cases hr : resolveStrict fs env p with
  | error e =>
    cases he : e.isFNF
    · simp [hr, bind, Except.bind, pure, Except.pure, he]
    · simp [hr, bind, Except.bind, pure, Except.pure, he, ha0, hcw]
  | ok a =>
    cases hh : resolveStrict fs env ⟨true, env.home⟩ with
    | error eh =>
      cases heh : eh.isFNF
      · simp [hr, hh, bind, Except.bind, pure, Except.pure, heh]
      · simp [hr, hh, bind, Except.bind, pure, Except.pure, heh, ha0, hcw]
    | ok h' =>
      cases hcr : resolveStrict fs env ⟨true, env.cwd⟩ with
      | error ec =>
        cases hec : ec.isFNF
        · simp [hr, hh, hcw, hcr, bind, Except.bind, pure, Except.pure, hec]
        · simp [hr, hh, hcw, hcr, bind, Except.bind, pure, Except.pure, hec, ha0]
      | ok c' =>
        simp [hr, hh, hcw, hcr, bind, Except.bind, pure, Except.pure]

theorem selfCheck_total (fs : FS) (env : Env) (s d : PyPath) :
    ∃ b, selfCheck fs env s d = .ok b := by
  unfold selfCheck resolveNS
  cases hs : pyAbspath fs env s with
  | error e =>
    simp [pyAbspath_error_isFNF hs]
  | ok rs =>
    cases hd : pyAbspath fs env d with
    | error e =>
      simp [pyAbspath_error_isFNF hd]
    | ok rd => simp

/-- C3 (amended): provided the process's current working directory still
exists as a directory, `sync_data` always returns an ordinary
`(bool, message)` pair — every OS-level failure is caught and converted.
(As originally stated, over *every* filesystem state, the claim is false:
when the working directory has been deleted, `Path.cwd()` raised inside
the `except` handler of `is_safe_path` propagates out of `sync_data`; see
the counterexample.) -/
theorem C3_no_exception_when_cwd_exists (fs : FS) (env : Env)
    (sp dp op : String) (hc : isDirFS fs env.cwd = true) :
    ∃ r fs', sync_data fs env sp dp op = .ok (r, fs') := by
  obtain ⟨b, hb⟩ := is_safe_path_total fs env (parsePath dp) hc
  obtain ⟨n, hn⟩ := selfCheck_total fs env (parsePath sp) (parsePath dp)
  unfold sync_data
  cases hex : pyExists fs env (parsePath sp)
  · exact ⟨(false, msgNotExist (parsePath sp)), fs, by simp [hex]⟩
  · cases b
    · exact ⟨(false, msgUnsafe (parsePath dp)), fs, by simp [hex, hb]⟩
    · cases n
      · cases hprep : prepare fs env (parsePath dp) with
        | error e =>
          exact ⟨(false, msgMkdirFail (parsePath dp) e), fs, by simp [hex, hb, hn, hprep]⟩
        | ok fs1 =>
          exact ⟨(mainAction fs1 env (parsePath sp) (parsePath dp) op).1,
            (mainAction fs1 env (parsePath sp) (parsePath dp) op).2,
            by simp [hex, hb, hn, hprep]⟩
      · exact ⟨(false, msgSelfNest), fs, by simp [hex, hb, hn]⟩

/-- C3 witness: with the sound fixture environment the conclusion holds at
an arbitrary invocation. -/
theorem C3_witness :
    isDirFS fsW envW.cwd = true ∧
      ∃ r fs', sync_data fsW envW "/h/d/s" "/h/dd" "move" = .ok (r, fs') :=
  ⟨by decide, C3_no_exception_when_cwd_exists fsW envW "/h/d/s" "/h/dd" "move" (by decide)⟩

/-- C3 counterexample: the working directory `/gone` has been deleted; the
source `/h/d` exists, the destination `/h/newdir` does not, and the
`FileNotFoundError` raised by `os.getcwd()` inside the fallback branch of
`is_safe_path` propagates uncaught out of `sync_data`: the call does not
return a `(false, message)` pair. -/
theorem C3_counterexample :
    pyExists fsW envGone (parsePath "/h/d") = true ∧
    sync_data fsW envGone "/h/d" "/h/newdir" "copy" =
      .error (.fileNotFound "[Errno 2] No such file or directory (getcwd)") :=
  ⟨by rfl, by rfl⟩

/-- C4 (amended): non-strict canonicalization succeeds even for paths that
do not exist, so a merely nonexistent destination does *not* make the
self-containment check skipped: for every existing source S and safe,
nonexistent destination D whose (non-strict) canonical form descends from
S's, `sync_data` still returns the self-nesting failure before destination
preparation.  The check is skipped only when resolution genuinely raises
`FileNotFoundError`, which a nonexistent path does not cause. -/
theorem C4_nonexistent_destination_still_checked (fs : FS) (env : Env)
    (sp dp op : String)
    (hex : pyExists fs env (parsePath sp) = true)
    (hnex : pyExists fs env (parsePath dp) = false)
    (hsafe : is_safe_path fs env (parsePath dp) = .ok true)
    (rs rd : Comps)
    (hrs : resolveNS fs env (parsePath sp) = .ok rs)
    (hrd : resolveNS fs env (parsePath dp) = .ok rd)
    (hpre : rs.isPrefixOf rd = true) :
    sync_data fs env sp dp op = .ok ((false, msgSelfNest), fs) :=
  selfNest_result fs env sp dp op hex hsafe rs rd hrs hrd hpre

/-- C4 witness: the destination `/h/d/s/new` does not exist, yet the call
is still rejected as self-nesting (this is the repository's own test
`test_self_copy_check_with_nonexistent_dest`). -/
theorem C4_witness :
    pyExists fsW envW (parsePath "/h/d/s/new") = false ∧
    pyExists fsW envW (parsePath "/h/d/s") = true ∧
    sync_data fsW envW "/h/d/s" "/h/d/s/new" "copy" = .ok ((false, msgSelfNest), fsW) :=
  ⟨by rfl, by rfl,
    C4_nonexistent_destination_still_checked fsW envW "/h/d/s" "/h/d/s/new" "copy"
      (by rfl) (by rfl) (by rfl) ["h","d","s"] ["h","d","s","new"] (by rfl) (by rfl) (by rfl)⟩

/-- C4 counterexample: with the existing source `/h/d/s` and the
*nonexistent* destination `/h/d/s/new` — precisely the case the claim's
"(in particular when D does not yet exist)" asserts is skipped —
`sync_data` does return the SelfNesting failure instead of proceeding to
destination preparation, so the claim as stated is false. -/
theorem C4_counterexample :
    pyExists fsW envW (parsePath "/h/d/s/new") = false ∧
    pyExists fsW envW (parsePath "/h/d/s") = true ∧
    sync_data fsW envW "/h/d/s" "/h/d/s/new" "move" = .ok ((false, msgSelfNest), fsW) :=
  ⟨by rfl, by rfl, by rfl⟩

end DataSink
namespace DataSink

theorem isFileFS_congr {fs fs1 : FS} (h : fs1.files = fs.files) (p : Comps) :
    isFileFS fs1 p = isFileFS fs p := by
  unfold isFileFS
  rw [h]

theorem mkdirP_ok_parts {fs : FS} {env : Env} {p : PyPath} {fs1 : FS}
    (h : mkdirP fs env p = .ok fs1) :
    fs1.files = fs.files ∧
    fs1.dirs = fs.dirs ++ (opsAbs env p).inits.filter (fun q => !(isDirFS fs q)) ∧
    (opsAbs env p).inits.any (fun q => isFileFS fs q) = false := by
  unfold mkdirP at h
  split at h
  · exact absurd h (by simp)
  · split at h
    · exact absurd h (by simp)
    · injection h with h2
      refine ⟨by rw [← h2], by rw [← h2], ?_⟩
      rename_i hfl
      simpa using hfl

theorem statWalk_file_preserved {fs fs1 : FS}
    (hfiles : fs1.files = fs.files)
    (hmono : ∀ q, isDirFS fs q = true → isDirFS fs1 q = true)
    (hnew : ∀ q, isDirFS fs1 q = true → isDirFS fs q = true ∨ isFileFS fs q = false) :
    ∀ (l : List String) (acc : Comps), statWalk fs acc l = some false →
      statWalk fs1 acc l = some false := by
  intro l
  induction l with
  | nil =>
    intro acc hs
    rw [statWalk] at hs ⊢
    split at hs
    · simp at hs
    · split at hs
      · rename_i hndir hfile
        have h1 : isDirFS fs1 acc = false := by
          cases hq : isDirFS fs1 acc
          · rfl
          · rcases hnew acc hq with h2 | h2
            · simp [h2] at hndir
            · rw [h2] at hfile
              simp at hfile
        rw [h1, isFileFS_congr hfiles, hfile]
        simp
      · simp at hs
  | cons c rest ih =>
    intro acc hs
    rw [statWalk] at hs ⊢
    split at hs
    · rw [hmono _ (by assumption)]
      simp only [if_true]
      exact ih _ hs
    · simp at hs

theorem prepare_preserves_file {fs : FS} {env : Env} {d : PyPath} {fs1 : FS}
    (hprep : prepare fs env d = .ok fs1) :
    fs1.files = fs.files ∧
    (∀ p : PyPath, pyStat fs env p = some false → pyStat fs1 env p = some false) := by
  unfold prepare at hprep
  split at hprep
  · injection hprep with h2
    subst h2
    exact ⟨rfl, fun p h => h⟩
  · obtain ⟨hfl, hdl, hnofile⟩ := mkdirP_ok_parts hprep
    have hmono : ∀ q, isDirFS fs q = true → isDirFS fs1 q = true := by
      intro q hq
      rcases isDirFS_iff.1 hq with h | h
      · exact isDirFS_iff.2 (Or.inl h)
      · exact isDirFS_iff.2 (Or.inr (by rw [hdl]; exact List.mem_append.2 (Or.inl h)))
    have hnew : ∀ q, isDirFS fs1 q = true → isDirFS fs q = true ∨ isFileFS fs q = false := by
      intro q hq
      rcases isDirFS_iff.1 hq with h | h
      · exact Or.inl (isDirFS_iff.2 (Or.inl h))
      · rw [hdl] at h
        rcases List.mem_append.1 h with h | h
        · exact Or.inl (isDirFS_iff.2 (Or.inr h))
        · have hq2 := List.mem_filter.1 h
          right
          cases hfq : isFileFS fs q
          · rfl
          · exact absurd hfq (List.any_eq_false.mp hnofile q hq2.1)
    exact ⟨hfl, fun p h => statWalk_file_preserved hfl hmono hnew p.comps _ h⟩

/-- C8 (amended): for every existing source file F, safe destination D not
nested in F and successful destination preparation, the call with operation
`delete` returns exactly `(false, "Invalid operation 'delete' specified for
file.")`; F and every other file are untouched (destination preparation
changes no file), and when D already is a directory the filesystem is
completely unchanged.  When D does not exist, however, it is created (with
its missing parents) by the preparation step, which precedes operation
validation, so the filesystem is *not* unchanged in general — see the
counterexample. -/
theorem C8_delete_rejected_for_file (fs : FS) (env : Env) (sp dp : String)
    (hsrc : pyIsFile fs env (parsePath sp) = true)
    (hsafe : is_safe_path fs env (parsePath dp) = .ok true)
    (hself : selfCheck fs env (parsePath sp) (parsePath dp) = .ok false)
    (fs1 : FS) (hprep : prepare fs env (parsePath dp) = .ok fs1) :
    sync_data fs env sp dp "delete" =
      .ok ((false, "Invalid operation 'delete' specified for file."), fs1) ∧
    fs1.files = fs.files ∧
    (pyIsDir fs env (parsePath dp) = true → fs1 = fs) := by
  have hstat : pyStat fs env (parsePath sp) = some false := pyIsFile_iff.1 hsrc
  have hex : pyExists fs env (parsePath sp) = true := by
    unfold pyExists
    rw [hstat]
    rfl
  obtain ⟨hfl, hpres⟩ := prepare_preserves_file hprep
  have hstat1 : pyStat fs1 env (parsePath sp) = some false := hpres _ hstat
  have hmain : mainAction fs1 env (parsePath sp) (parsePath dp) "delete" =
      ((false, msgInvalidOpFile "delete"), fs1) := by
    unfold mainAction
    rw [show pyIsDir fs1 env (parsePath sp) = false from by simp [pyIsDir, hstat1]]
    rw [show pyIsFile fs1 env (parsePath sp) = true from by simp [pyIsFile, hstat1]]
    simp
  refine ⟨?_, hfl, ?_⟩
  · unfold sync_data
    simp only [hex, Bool.not_true, Bool.false_eq_true, if_false, hsafe, hself, hprep, hmain]
    rfl
  · intro hd
    unfold prepare at hprep
    rw [hd] at hprep
    simp only [if_true] at hprep
    injection hprep with h2
    exact h2.symm

/-- C8 witness: deleting a file with an existing destination directory is
rejected with the exact message and the filesystem is unchanged. -/
theorem C8_witness :
    pyIsFile fsW envW (parsePath "/h/d/s/f.txt") = true ∧
    is_safe_path fsW envW (parsePath "/h/dd") = .ok true ∧
    (sync_data fsW envW "/h/d/s/f.txt" "/h/dd" "delete" =
        .ok ((false, "Invalid operation 'delete' specified for file."), fsW) ∧
      fsW.files = fsW.files ∧
      (pyIsDir fsW envW (parsePath "/h/dd") = true → fsW = fsW)) :=
  ⟨by rfl, by rfl,
    C8_delete_rejected_for_file fsW envW "/h/d/s/f.txt" "/h/dd" (by rfl) (by rfl) (by rfl)
      fsW (by rfl)⟩

/-- C8 counterexample: with the safe but *nonexistent* destination
`/h/newdd`, the `delete` call still fails with the exact message, but it
has created the destination directory first: the filesystem is changed, so
"the filesystem is unchanged" is false as universally stated. -/
theorem C8_counterexample :
    pyIsFile fsW envW (parsePath "/h/d/s/f.txt") = true ∧
    is_safe_path fsW envW (parsePath "/h/newdd") = .ok true ∧
    pyExists fsW envW (parsePath "/h/newdd") = false ∧
    isDirFS fsW ["h","newdd"] = false ∧
    resMsg? (sync_data fsW envW "/h/d/s/f.txt" "/h/newdd" "delete") =
      some "Invalid operation 'delete' specified for file." ∧
    (resFS? (sync_data fsW envW "/h/d/s/f.txt" "/h/newdd" "delete")).map
      (fun f => isDirFS f ["h","newdd"]) = some true :=
  ⟨by rfl, by rfl, by rfl, by rfl, by rfl, by rfl⟩

end DataSink
namespace DataSink

theorem mainAction_fail_msg {fs : FS} {env : Env} {s d : PyPath} {op m : String} {fs' : FS}
    (h : mainAction fs env s d op = ((false, m), fs')) :
    m = msgInvalidOpDir op ∨ m = msgInvalidOpFile op ∨ m = msgNotFileOrDir s ∨
      ∃ e, m = msgOpError op e := by
  unfold mainAction at h
  split at h
  · split at h
    · split at h
      · simp at h
      · simp only [Prod.mk.injEq] at h
        exact Or.inr (Or.inr (Or.inr ⟨_, h.1.2.symm⟩))
    · split at h
      · split at h
        · simp only [Prod.mk.injEq] at h
          exact Or.inr (Or.inr (Or.inr ⟨_, h.1.2.symm⟩))
        · split at h
          · simp at h
          · simp only [Prod.mk.injEq] at h
            exact Or.inr (Or.inr (Or.inr ⟨_, h.1.2.symm⟩))
      · simp only [Prod.mk.injEq] at h
        exact Or.inl h.1.2.symm
  · split at h
    · split at h
      · split at h
        · simp at h
        · simp only [Prod.mk.injEq] at h
          exact Or.inr (Or.inr (Or.inr ⟨_, h.1.2.symm⟩))
      · split at h
        · split at h
          · simp at h
          · simp only [Prod.mk.injEq] at h
            exact Or.inr (Or.inr (Or.inr ⟨_, h.1.2.symm⟩))
        · simp only [Prod.mk.injEq] at h
          exact Or.inr (Or.inl h.1.2.symm)
    · simp only [Prod.mk.injEq] at h
      exact Or.inr (Or.inr (Or.inl h.1.2.symm))

/-- C9 (amended): every failing invocation's message has exactly one of the
seven per-failure shapes: `SourceNotFound` names only the source path,
`UnsafeDestination` only the destination path, `SelfNesting` is fixed text
naming no path, `DestinationCreateFailed` names the destination and the OS
error, `InvalidOperation` names the operation and whether a file or a
directory was concerned (but no path), `UnsupportedSourceType` names the
source, and `TransferFailed` names the operation and carries the underlying
system error text verbatim.  The original claim — that *every* failing
message names both paths and the operation — is false, see the
counterexample. -/
theorem C9_failure_message_shapes (fs : FS) (env : Env) (sp dp op : String)
    (m : String) (fs' : FS)
    (h : sync_data fs env sp dp op = .ok ((false, m), fs')) :
    failShape (parsePath sp) (parsePath dp) op m := by
  unfold failShape
  simp only [sync_data] at h
  split at h
  · simp only [Except.ok.injEq, Prod.mk.injEq] at h
    exact Or.inl h.1.2.symm
  · split at h
    · exact absurd h (by simp)
    · split at h
      · simp only [Except.ok.injEq, Prod.mk.injEq] at h
        exact Or.inr (Or.inl h.1.2.symm)
      · split at h
        · exact absurd h (by simp)
        · split at h
          · simp only [Except.ok.injEq, Prod.mk.injEq] at h
            exact Or.inr (Or.inr (Or.inl h.1.2.symm))
          · split at h
            · simp only [Except.ok.injEq, Prod.mk.injEq] at h
              exact Or.inr (Or.inr (Or.inr (Or.inl ⟨_, h.1.2.symm⟩)))
            · simp only [Except.ok.injEq] at h
              have h2 := mainAction_fail_msg h
              rcases h2 with h2 | h2 | h2 | h2
              · exact Or.inr (Or.inr (Or.inr (Or.inr (Or.inl h2))))
              · exact Or.inr (Or.inr (Or.inr (Or.inr (Or.inr (Or.inl h2)))))
              · exact Or.inr (Or.inr (Or.inr (Or.inr (Or.inr (Or.inr (Or.inl h2))))))
              · exact Or.inr (Or.inr (Or.inr (Or.inr (Or.inr (Or.inr (Or.inr h2))))))

/-- C9 witness: the theorem applies to a concrete failing invocation (a
missing source), whose message is of the `SourceNotFound` shape. -/
theorem C9_witness :
    sync_data fsW envW "/h/missing" "/h/dd" "move" =
      .ok ((false, msgNotExist (parsePath "/h/missing")), fsW) ∧
    failShape (parsePath "/h/missing") (parsePath "/h/dd") "move"
      (msgNotExist (parsePath "/h/missing")) :=
  ⟨by rfl,
    C9_failure_message_shapes fsW envW "/h/missing" "/h/dd" "move"
      (msgNotExist (parsePath "/h/missing")) fsW (by rfl)⟩

/-- C9 counterexample: the failing `SourceNotFound` message of
`sync_data("/h/missing", "/h/dd", "move")` names neither the destination
path nor the operation, so the claim that every failing message names the
exact source and destination paths and the operation is false. -/
theorem C9_counterexample :
    sync_data fsW envW "/h/missing" "/h/dd" "move" =
      .ok ((false, "Error: Source path '/h/missing' does not exist."), fsW) ∧
    strContains "Error: Source path '/h/missing' does not exist." "/h/dd" = false ∧
    strContains "Error: Source path '/h/missing' does not exist." "move" = false :=
  ⟨by rfl, by decide, by decide⟩

end DataSink
namespace DataSink

theorem ne_of_7 {s t : String} (h : s.data[7]? ≠ t.data[7]?) : s ≠ t := by
  intro he
  rw [he] at h
  exact h rfl

theorem ne_of_7ne (a b : Char) {s t : String} (hs : s.data[7]? = some a)
    (ht : t.data[7]? = some b) (hab : (a == b) = false) : s ≠ t := by
  intro he
  rw [he, ht] at hs
  have h2 := Option.some.inj hs
  rw [h2] at hab
  simp at hab

theorem mainAction_msg_ne_unsafe {fs : FS} {env : Env} {s d : PyPath} {op m : String}
    {b : Bool} {fs' : FS} (d' : PyPath)
    (h : mainAction fs env s d op = ((b, m), fs')) : m ≠ msgUnsafe d' := by
  unfold mainAction at h
  repeat' split at h
  all_goals simp only [Prod.mk.injEq] at h
  all_goals rw [← h.1.2]
  all_goals first
    | exact ne_of_7ne 'f' 'D' rfl rfl (by decide)
    | exact ne_of_7ne 'r' 'D' rfl rfl (by decide)
    | exact ne_of_7ne ' ' 'D' rfl rfl (by decide)
    | exact ne_of_7ne 'S' 'D' rfl rfl (by decide)

theorem statWalk_of_none {fs : FS} :
    ∀ (l : List String) (acc : Comps), goodComps l = true →
      (∀ q r, q ++ r = l → r ≠ [] → isDirFS fs (acc ++ q) = true) →
      isDirFS fs (acc ++ l) = false → isFileFS fs (acc ++ l) = false →
      statWalk fs acc l = none := by
  intro l
  induction l with
  | nil =>
    intro acc _ _ hd hf
    rw [statWalk]
    simp only [List.append_nil] at hd hf
    rw [hd, hf]
    simp
  | cons c rest ih =>
    intro acc hg hpre hd hf
    obtain ⟨hc, hrest⟩ := goodComps_cons.1 hg
    have hacc : isDirFS fs acc = true := by
      have := hpre [] (c :: rest) rfl (by simp)
      simpa using this
    rw [statWalk, hacc]
    simp only [if_true, goodComp_not_dots hc, Bool.false_eq_true, if_false]
    refine ih (acc ++ [c]) hrest ?_ ?_ ?_
    · intro q r hqr hr
      have h2 := hpre (c :: q) r (by rw [List.cons_append, hqr]) hr
      rwa [List.append_cons acc c q] at h2
    · rwa [List.append_cons] at hd
    · rwa [List.append_cons] at hf

theorem pyName_good {p : PyPath} (hne : p.comps ≠ []) (hg : goodComps p.comps = true) :
    goodComp (pyName p) = true := by
  unfold pyName
  cases hq : p.comps.getLast? with
  | none =>
    rcases List.eq_nil_or_concat p.comps with he | ⟨l', a, he⟩
    · exact absurd he hne
    · rw [he, List.concat_eq_append, List.getLast?_concat] at hq
      exact absurd hq (by simp)
  | some a =>
    have ha : a ∈ p.comps := List.mem_of_mem_getLast? (by rw [hq]; rfl)
    simpa using List.all_eq_true.mp hg a ha

theorem comps_ne_nil_of_stat_file {fs : FS} {env : Env} {p : PyPath}
    (habs : p.isAbs = true) (h : pyStat fs env p = some false) : p.comps ≠ [] := by
  intro he
  unfold pyStat at h
  rw [habs, he] at h
  simp only [if_true] at h
  rw [statWalk] at h
  simp [isDirFS] at h

theorem pre_of_concat {q r d : Comps} {n : String} (h : q ++ r = d ++ [n]) (hr : r ≠ []) :
    q <+: d := by
  have h1 : q <+: d ++ [n] := ⟨r, h⟩
  have hne : q ≠ d ++ [n] := by
    intro he
    rw [he] at h
    have h2 : r = [] := by
      refine List.append_cancel_left (?_ : (d ++ [n]) ++ r = (d ++ [n]) ++ [])
      rw [List.append_nil]
      exact h
    exact hr h2
  have h2 := pre_dropLast h1 hne
  simpa using h2

/-- C10: the safety-boundary check is applied only to the destination:
with an existing source file S rejected by `is_safe_path` (outside both
home and cwd) and a safe destination directory D, no invocation of
`sync_data` produces the unsafe-destination message, and the move
operation reads S, relocates it under D and deletes it at its original
(outside) location. -/
theorem C10_source_location_never_checked (fs : FS) (env : Env) (sp dp : String)
    (hW : fs.Wf)
    (hsabs : (parsePath sp).isAbs = true) (hsgood : goodComps (parsePath sp).comps = true)
    (hdabs : (parsePath dp).isAbs = true) (hdgood : goodComps (parsePath dp).comps = true)
    (hsrc : pyIsFile fs env (parsePath sp) = true)
    (hrejectedSrc : is_safe_path fs env (parsePath sp) = .ok false)
    (hsafe : is_safe_path fs env (parsePath dp) = .ok true)
    (hself : selfCheck fs env (parsePath sp) (parsePath dp) = .ok false)
    (hdst : pyIsDir fs env (parsePath dp) = true)
    (htgtd : isDirFS fs ((parsePath dp).comps ++ [pyName (parsePath sp)]) = false)
    (htgtf : isFileFS fs ((parsePath dp).comps ++ [pyName (parsePath sp)]) = false) :
    (∀ op b m fs2, sync_data fs env sp dp op = .ok ((b, m), fs2) →
        m ≠ msgUnsafe (parsePath dp)) ∧
    ∃ fs3, sync_data fs env sp dp "move" =
        .ok ((true, msgMovedFile (parsePath sp) (parsePath dp)), fs3) ∧
      pyExists fs3 env (parsePath sp) = false ∧
      isFileFS fs3 ((parsePath dp).comps ++ [pyName (parsePath sp)]) = true := by
  have hstat : pyStat fs env (parsePath sp) = some false := pyIsFile_iff.1 hsrc
  have hex : pyExists fs env (parsePath sp) = true := by
    unfold pyExists
    rw [hstat]
    rfl
  have hprep : prepare fs env (parsePath dp) = .ok fs := by
    unfold prepare
    rw [hdst]
    simp
  have hsc : opsAbs env (parsePath sp) = (parsePath sp).comps := opsAbs_abs hsabs hsgood
  have hdc : opsAbs env (parsePath dp) = (parsePath dp).comps := opsAbs_abs hdabs hdgood
  have hsflat : isFileFS fs (parsePath sp).comps = true := by
    have h2 := pyStat_file_flat hstat
    rwa [hsc] at h2
  have hdflat : isDirFS fs (parsePath dp).comps = true := by
    have h2 := pyStat_dir_flat (pyIsDir_iff.1 hdst)
    rwa [hdc] at h2
  have hsne : (parsePath sp).comps ≠ [] := comps_ne_nil_of_stat_file hsabs hstat
  have hname : goodComp (pyName (parsePath sp)) = true := pyName_good hsne hsgood
  constructor
  · intro op b m fs2 h
    rw [show sync_data fs env sp dp op =
        .ok (mainAction fs env (parsePath sp) (parsePath dp) op) from by
      simp [sync_data, hex, hsafe, hself, hprep]] at h
    injection h with h2
    exact mainAction_msg_ne_unsafe (parsePath dp) h2
  · have hmv : moveM fs (parsePath sp).comps (parsePath dp).comps (pyName (parsePath sp)) =
        (⟨fs.dirs.filter (fun q => !((parsePath sp).comps.isPrefixOf q))
            ++ fs.dirs.filterMap (fun q => (relTo (parsePath sp).comps q).map
              (fun s => ((parsePath dp).comps ++ [pyName (parsePath sp)]) ++ s)),
          fs.files.filter (fun e => !((parsePath sp).comps.isPrefixOf e.1))
            ++ fs.files.filterMap (fun e => (relTo (parsePath sp).comps e.1).map
              (fun s => (((parsePath dp).comps ++ [pyName (parsePath sp)]) ++ s, e.2)))⟩,
         none) := by
      unfold moveM relocFS
      rw [htgtd, htgtf, hsflat]
      simp
    have hddpath : pyExists fs env
        (⟨(parsePath dp).isAbs, (parsePath dp).comps ++ [pyName (parsePath sp)]⟩ : PyPath) =
          false := by
      unfold pyExists pyStat
      rw [hdabs]
      simp only [if_true]
      rw [statWalk_of_none ((parsePath dp).comps ++ [pyName (parsePath sp)]) []
        (by
          rw [goodComps, List.all_append]
          simp only [Bool.and_eq_true]
          exact ⟨hdgood, by simpa [goodComps] using hname⟩)
        (by
          intro q r hqr hr
          have hq : q <+: (parsePath dp).comps := pre_of_concat hqr hr
          simpa using isDir_of_dir_pre hW hq hdflat)
        (by simpa using htgtd)
        (by simpa using htgtf)]
      rfl
    have hmain : mainAction fs env (parsePath sp) (parsePath dp) "move" =
        ((true, msgMovedFile (parsePath sp) (parsePath dp)),
          (moveM fs (parsePath sp).comps (parsePath dp).comps (pyName (parsePath sp))).1) := by
      unfold mainAction
      rw [show pyIsDir fs env (parsePath sp) = false from by simp [pyIsDir, hstat]]
      rw [hsrc]
      simp only [Bool.false_eq_true, if_false, if_true]
      rw [hsc, hdc, hmv]
      rfl
    refine ⟨(moveM fs (parsePath sp).comps (parsePath dp).comps (pyName (parsePath sp))).1,
      ?_, ?_, ?_⟩
    · simp [sync_data, hex, hsafe, hself, hprep, hmain]
    · rw [hmv]
      unfold pyExists pyStat
      rw [hsabs]
      simp only [if_true]
      rw [statWalk_of_none (parsePath sp).comps [] hsgood
        (by
          intro q r hqr hr
          have hq : q <+: (parsePath sp).comps := ⟨r, hqr⟩
          have hqne : q ≠ (parsePath sp).comps := by
            intro he
            rw [he] at hqr
            have h2 : r = [] :=
              List.append_cancel_left (by rw [List.append_nil]; exact hqr)
            exact hr h2
          have hqd : isDirFS fs q = true := isDir_of_file_strict_pre hW hsflat hq hqne
          rcases isDirFS_iff.1 hqd with he | hm
          · simpa [he] using isDirFS_iff.2 (Or.inl he)
          · simp only [List.nil_append]
            refine isDirFS_iff.2 (Or.inr ?_)
            refine List.mem_append.2 (Or.inl (List.mem_filter.2 ⟨hm, ?_⟩))
            have : (parsePath sp).comps.isPrefixOf q = false := by
              cases hp : (parsePath sp).comps.isPrefixOf q
              · rfl
              · have h3 := List.isPrefixOf_iff_prefix.1 hp
                have h4 := h3.length_le
                have h5 := hq.length_le
                have h6 : q = (parsePath sp).comps :=
                  (h3.eq_of_length_le (by omega)).symm
                exact absurd h6 hqne
            simp [this])
        ?_ ?_]
      · rfl
      · simp only [List.nil_append]
        cases hq : isDirFS
            (⟨fs.dirs.filter (fun q => !((parsePath sp).comps.isPrefixOf q))
              ++ fs.dirs.filterMap (fun q => (relTo (parsePath sp).comps q).map
                (fun s => ((parsePath dp).comps ++ [pyName (parsePath sp)]) ++ s)),
              fs.files.filter (fun e => !((parsePath sp).comps.isPrefixOf e.1))
                ++ fs.files.filterMap (fun e => (relTo (parsePath sp).comps e.1).map
                  (fun s => (((parsePath dp).comps ++ [pyName (parsePath sp)]) ++ s, e.2)))⟩ : FS)
            (parsePath sp).comps
        · rfl
        · exfalso
          rcases isDirFS_iff.1 hq with he | hm
          · exact hsne he
          · rcases List.mem_append.1 hm with hm | hm
            · have h3 := List.mem_filter.1 hm
              have h4 : (parsePath sp).comps.isPrefixOf (parsePath sp).comps = true :=
                List.isPrefixOf_iff_prefix.2 (List.prefix_refl _)
              rw [h4] at h3
              simp at h3
            · obtain ⟨q, hqmem, hqeq⟩ := List.mem_filterMap.1 hm
              unfold relTo at hqeq
              split at hqeq
              · simp only [Option.map_some', Option.some.injEq] at hqeq
                have htpre : ((parsePath dp).comps ++ [pyName (parsePath sp)]) <+:
                    (parsePath sp).comps := ⟨_, hqeq⟩
                by_cases hteq : ((parsePath dp).comps ++ [pyName (parsePath sp)]) =
                    (parsePath sp).comps
                · rw [hteq] at htgtf
                  rw [hsflat] at htgtf
                  simp at htgtf
                · have := isDir_of_file_strict_pre hW hsflat htpre hteq
                  rw [this] at htgtd
                  simp at htgtd
              · simp at hqeq
      · simp only [List.nil_append]
        rw [isFileFS]
        rw [List.any_eq_false]
        intro e he
        rcases List.mem_append.1 he with hm | hm
        · have h3 := List.mem_filter.1 hm
          intro hbeq
          have he2 : e.1 = (parsePath sp).comps := by simpa using hbeq
          rw [he2] at h3
          have h4 : (parsePath sp).comps.isPrefixOf (parsePath sp).comps = true :=
            List.isPrefixOf_iff_prefix.2 (List.prefix_refl _)
          rw [h4] at h3
          simp at h3
        · obtain ⟨q, hqmem, hqeq⟩ := List.mem_filterMap.1 hm
          unfold relTo at hqeq
          split at hqeq
          · simp only [Option.map_some', Option.some.injEq] at hqeq
            intro hbeq
            have he2 : e.1 = (parsePath sp).comps := by simpa using hbeq
            rw [← hqeq] at he2
            simp only at he2
            have htpre : ((parsePath dp).comps ++ [pyName (parsePath sp)]) <+:
                (parsePath sp).comps := ⟨_, he2⟩
            by_cases hteq : ((parsePath dp).comps ++ [pyName (parsePath sp)]) =
                (parsePath sp).comps
            · rw [hteq] at htgtf
              rw [hsflat] at htgtf
              simp at htgtf
            · have h5 := isDir_of_file_strict_pre hW hsflat htpre hteq
              rw [h5] at htgtd
              simp at htgtd
          · simp at hqeq
    · rw [hmv]
      simp only
      obtain ⟨c, hc⟩ := isFileFS_iff.1 hsflat
      refine isFileFS_iff.2 ⟨c, List.mem_append.2 (Or.inr ?_)⟩
      refine List.mem_filterMap.2 ⟨((parsePath sp).comps, c), hc, ?_⟩
      unfold relTo
      rw [if_pos (List.isPrefixOf_iff_prefix.2 (List.prefix_refl _))]
      simp [List.drop_length]

end DataSink
namespace DataSink

/-- C10 witness: the file `/etc/pw` lies outside home and cwd (its own
safety check would say no), yet a move into `/h/dd` succeeds, relocating
the file and removing the outside source. -/
theorem C10_witness :
    fsW.Wf ∧
    pyIsFile fsW envW (parsePath "/etc/pw") = true ∧
    is_safe_path fsW envW (parsePath "/etc/pw") = .ok false ∧
    is_safe_path fsW envW (parsePath "/h/dd") = .ok true ∧
    ((∀ op b m fs2, sync_data fsW envW "/etc/pw" "/h/dd" op = .ok ((b, m), fs2) →
        m ≠ msgUnsafe (parsePath "/h/dd")) ∧
      ∃ fs3, sync_data fsW envW "/etc/pw" "/h/dd" "move" =
          .ok ((true, msgMovedFile (parsePath "/etc/pw") (parsePath "/h/dd")), fs3) ∧
        pyExists fs3 envW (parsePath "/etc/pw") = false ∧
        isFileFS fs3 ((parsePath "/h/dd").comps ++ [pyName (parsePath "/etc/pw")]) = true) :=
  ⟨by decide, by rfl, by rfl, by rfl,
    C10_source_location_never_checked fsW envW "/etc/pw" "/h/dd" (by decide)
      (by rfl) (by rfl) (by rfl) (by rfl) (by rfl) (by rfl) (by rfl) (by rfl) (by rfl)
      (by rfl) (by rfl)⟩

end DataSink
namespace DataSink

theorem relTo_eq_some {base p s : Comps} : relTo base p = some s ↔ p = base ++ s := by
  unfold relTo
  split
  · rename_i hpre
    obtain ⟨t, ht⟩ := List.isPrefixOf_iff_prefix.1 hpre
    constructor
    · intro h
      injection h with h2
      rw [← h2, ← ht, List.drop_left]
    · intro h
      subst h
      rw [List.drop_left]
  · rename_i hpre
    constructor
    · intro h
      exact absurd h (by simp)
    · intro h
      subst h
      exact absurd (List.isPrefixOf_iff_prefix.2 (List.prefix_append _ _)) hpre

theorem mem_dirs_image {l : List Comps} {S T q : Comps} :
    q ∈ l.filterMap (fun d => (relTo S d).map (fun s => T ++ s)) ↔
      ∃ s, q = T ++ s ∧ S ++ s ∈ l := by
  rw [List.mem_filterMap]
  constructor
  · rintro ⟨d, hd, hdq⟩
    rw [Option.map_eq_some'] at hdq
    obtain ⟨s, hs1, hs2⟩ := hdq
    rw [relTo_eq_some] at hs1
    exact ⟨s, hs2.symm, hs1 ▸ hd⟩
  · rintro ⟨s, rfl, hmem⟩
    exact ⟨S ++ s, hmem, by rw [show relTo S (S ++ s) = some s from relTo_eq_some.2 rfl]; rfl⟩

theorem find?_filter_key {files : List (Comps × String)} {pred : Comps → Bool} {q : Comps} :
    (files.filter (fun e => pred e.1)).find? (fun e => e.1 == q) =
      if pred q then files.find? (fun e => e.1 == q) else none := by
  induction files with
  | nil => simp
  | cons e rest ih =>
    rw [List.filter_cons]
    by_cases hpe : pred e.1 = true
    · rw [if_pos hpe, List.find?_cons]
      by_cases hkey : e.1 = q
      · rw [show (e.1 == q) = true from by simp [hkey]]
        rw [if_pos (hkey ▸ hpe), List.find?_cons, show (e.1 == q) = true from by simp [hkey]]
      · rw [show (e.1 == q) = false from by simp [hkey], ih]
        by_cases hpq : pred q = true
        · rw [if_pos hpq, if_pos hpq, List.find?_cons,
            show (e.1 == q) = false from by simp [hkey]]
        · rw [if_neg hpq, if_neg hpq]
    · rw [if_neg hpe, ih]
      by_cases hpq : pred q = true
      · rw [if_pos hpq, if_pos hpq, List.find?_cons]
        have hkey : (e.1 == q) = false := by
          cases hk : (e.1 == q)
          · rfl
          · exfalso
            have h2 : e.1 = q := by simpa using hk
            rw [← h2] at hpq
            exact absurd hpq hpe
        rw [hkey]
      · rw [if_neg hpq, if_neg hpq]

theorem find?_image (files : List (Comps × String)) (S T q : Comps) :
    (files.filterMap (fun e => (relTo S e.1).map (fun s => (T ++ s, e.2)))).find?
        (fun e => e.1 == q) =
      if T.isPrefixOf q then
        (files.find? (fun e => e.1 == S ++ q.drop T.length)).map
          (fun e => (q, e.2))
      else none := by
  induction files with
  | nil => simp
  | cons e rest ih =>
    rw [List.filterMap_cons]
    cases hrel : relTo S e.1 with
    | none =>
      simp only [Option.map_none']
      rw [ih]
      by_cases hTq : T.isPrefixOf q = true
      · rw [if_pos hTq, if_pos hTq, List.find?_cons]
        have hkey : (e.1 == S ++ q.drop T.length) = false := by
          cases hk : (e.1 == S ++ q.drop T.length)
          · rfl
          · exfalso
            have h2 : e.1 = S ++ q.drop T.length := by simpa using hk
            rw [show relTo S e.1 = some (q.drop T.length) from relTo_eq_some.2 h2] at hrel
            exact absurd hrel (by simp)
        rw [hkey]
      · rw [if_neg hTq, if_neg hTq]
    | some s =>
      rw [relTo_eq_some] at hrel
      simp only [Option.map_some']
      rw [List.find?_cons]
      by_cases hq2 : T ++ s = q
      · rw [show ((T ++ s, e.2).1 == q) = true from by simp [hq2]]
        subst hq2
        have hTq : T.isPrefixOf (T ++ s) = true :=
          List.isPrefixOf_iff_prefix.2 (List.prefix_append _ _)
        rw [if_pos hTq, List.drop_left, List.find?_cons]
        rw [show (e.1 == S ++ s) = true from by rw [hrel]; simp]
        rfl
      · rw [show ((T ++ s, e.2).1 == q) = false from by simp [hq2]]
        rw [ih]
        by_cases hTq : T.isPrefixOf q = true
        · rw [if_pos hTq, if_pos hTq, List.find?_cons]
          have hkey : (e.1 == S ++ q.drop T.length) = false := by
            cases hk : (e.1 == S ++ q.drop T.length)
            · rfl
            · exfalso
              have h2 : e.1 = S ++ q.drop T.length := by simpa using hk
              rw [hrel] at h2
              have hs2 : s = q.drop T.length := List.append_cancel_left h2
              obtain ⟨t, ht⟩ := List.isPrefixOf_iff_prefix.1 hTq
              apply hq2
              rw [hs2, ← ht, List.drop_left]
          rw [hkey]
        · rw [if_neg hTq, if_neg hTq]

theorem not_pre_of_disjoint {S T : Comps} (s : Comps) (h1 : T.isPrefixOf S = false)
    (h2 : S.isPrefixOf T = false) : T.isPrefixOf (S ++ s) = false := by
  cases hp : T.isPrefixOf (S ++ s)
  · rfl
  · exfalso
    have hT : T <+: S ++ s := List.isPrefixOf_iff_prefix.1 hp
    have hS : S <+: S ++ s := List.prefix_append _ _
    rcases List.prefix_or_prefix_of_prefix hT hS with h | h
    · rw [List.isPrefixOf_iff_prefix.2 h] at h1
      simp at h1
    · rw [List.isPrefixOf_iff_prefix.2 h] at h2
      simp at h2

end DataSink
namespace DataSink

theorem isFileFS_eq_false_iff_find? {fs : FS} {q : Comps} :
    isFileFS fs q = false ↔ fs.files.find? (fun e => e.1 == q) = none := by
  rw [isFileFS, List.any_eq_false, List.find?_eq_none]

theorem nil_isPre (l : Comps) : List.isPrefixOf ([] : Comps) l = true :=
  List.isPrefixOf_iff_prefix.2 List.nil_prefix

theorem relocFS_dirs {fs2 fs : FS} {S T : Comps}
    (hF3 : ∀ q, List.isPrefixOf T q = true → q ∉ fs2.dirs)
    (hF4 : ∀ q, List.isPrefixOf T q = false → (q ∈ fs2.dirs ↔ q ∈ fs.dirs))
    (hST : ∀ s, List.isPrefixOf T (S ++ s) = false) :
    (∀ s, (T ++ s) ∈ (relocFS fs2 S T).dirs ↔ (S ++ s) ∈ fs.dirs) ∧
    (∀ s, (S ++ s) ∉ (relocFS fs2 S T).dirs) ∧
    (∀ q, List.isPrefixOf S q = false → List.isPrefixOf T q = false →
      ((q ∈ (relocFS fs2 S T).dirs) ↔ q ∈ fs.dirs)) := by
  refine ⟨?_, ?_, ?_⟩
  · intro s
    constructor
    · intro hmem
      rcases List.mem_append.1 hmem with hm | hm
      · exact absurd (List.mem_filter.1 hm).1
          (hF3 _ (List.isPrefixOf_iff_prefix.2 (List.prefix_append _ _)))
      · obtain ⟨s', heq, hmem2⟩ := mem_dirs_image.1 hm
        have hs : s = s' := List.append_cancel_left heq
        subst hs
        exact (hF4 _ (hST s)).1 hmem2
    · intro hmem
      refine List.mem_append.2 (Or.inr (mem_dirs_image.2 ⟨s, rfl, ?_⟩))
      exact (hF4 _ (hST s)).2 hmem
  · intro s hmem
    rcases List.mem_append.1 hmem with hm | hm
    · have h2 := (List.mem_filter.1 hm).2
      rw [show List.isPrefixOf S (S ++ s) = true from
        List.isPrefixOf_iff_prefix.2 (List.prefix_append _ _)] at h2
      simp at h2
    · obtain ⟨s', heq, _⟩ := mem_dirs_image.1 hm
      have h2 : (false : Bool) = true := by
        rw [← hST s, heq]
        exact List.isPrefixOf_iff_prefix.2 (List.prefix_append _ _)
      simp at h2
  · intro q hSq hTq
    constructor
    · intro hmem
      rcases List.mem_append.1 hmem with hm | hm
      · exact (hF4 _ hTq).1 (List.mem_filter.1 hm).1
      · obtain ⟨s', heq, _⟩ := mem_dirs_image.1 hm
        rw [heq, List.isPrefixOf_iff_prefix.2 (List.prefix_append _ _)] at hTq
        exact absurd hTq (by simp)
    · intro hmem
      exact List.mem_append.2 (Or.inl (List.mem_filter.2 ⟨(hF4 _ hTq).2 hmem, by simp [hSq]⟩))

theorem relocFS_files {fs2 fs : FS} {S T : Comps}
    (hF1 : ∀ q, List.isPrefixOf T q = true → fs2.files.find? (fun e => e.1 == q) = none)
    (hF2 : ∀ q, List.isPrefixOf T q = false →
      fs2.files.find? (fun e => e.1 == q) = fs.files.find? (fun e => e.1 == q))
    (hST : ∀ s, List.isPrefixOf T (S ++ s) = false) :
    (∀ s, lookupFile (relocFS fs2 S T) (T ++ s) = lookupFile fs (S ++ s)) ∧
    (∀ s, lookupFile (relocFS fs2 S T) (S ++ s) = none) ∧
    (∀ q, List.isPrefixOf S q = false → List.isPrefixOf T q = false →
      lookupFile (relocFS fs2 S T) q = lookupFile fs q) := by
  have hfind : ∀ q : Comps, (relocFS fs2 S T).files.find? (fun e => e.1 == q) =
      ((fs2.files.filter (fun e => !(List.isPrefixOf S e.1))).find? (fun e => e.1 == q)).or
        ((fs2.files.filterMap (fun e => (relTo S e.1).map (fun s => (T ++ s, e.2)))).find?
          (fun e => e.1 == q)) := by
    intro q
    exact List.find?_append
  refine ⟨?_, ?_, ?_⟩
  · intro s
    unfold lookupFile
    rw [hfind (T ++ s),
      @find?_filter_key fs2.files (fun p => !(List.isPrefixOf S p)) (T ++ s),
      find?_image fs2.files S T (T ++ s),
      hF1 (T ++ s) (List.isPrefixOf_iff_prefix.2 (List.prefix_append _ _)),
      ite_self,
      show List.isPrefixOf T (T ++ s) = true from
        List.isPrefixOf_iff_prefix.2 (List.prefix_append _ _),
      if_pos rfl, List.drop_left, hF2 (S ++ s) (hST s), Option.none_or]
    cases fs.files.find? (fun e => e.1 == S ++ s) <;> rfl
  · intro s
    unfold lookupFile
    rw [hfind (S ++ s),
      @find?_filter_key fs2.files (fun p => !(List.isPrefixOf S p)) (S ++ s),
      find?_image fs2.files S T (S ++ s),
      show List.isPrefixOf S (S ++ s) = true from
        List.isPrefixOf_iff_prefix.2 (List.prefix_append _ _),
      hST s]
    simp
  · intro q hSq hTq
    unfold lookupFile
    rw [hfind q,
      @find?_filter_key fs2.files (fun p => !(List.isPrefixOf S p)) q,
      find?_image fs2.files S T q,
      hSq, hTq, hF2 q hTq]
    simp

end DataSink
namespace DataSink

/-- C6: directory move with destructive overwrite — amended.  The claim
holds when the real move target `D/name(S)` is disjoint from `S` (neither
path a prefix of the other) and is not occupied by a plain file:
`sync_data S D move` removes any existing directory `D/name(S)`, relocates
the whole tree `S` there (same subtree of directories and identical file
contents), the tree at `S` is gone afterwards, and every path under
neither `S` nor `D/name(S)` is untouched.  The unrestricted claim is
false: for `D = parent(S)` the target `D/name(S)` is `S` itself,
`shutil.rmtree` first deletes the source tree and the subsequent
`shutil.move` then fails, so the call destroys the source and reports a
failure (see the counterexample). -/
theorem C6_move_destructive_overwrite (fs : FS) (env : Env) (sp dp : String)
    (hW : fs.Wf)
    (hsabs : (parsePath sp).isAbs = true) (hsgood : goodComps (parsePath sp).comps = true)
    (hdabs : (parsePath dp).isAbs = true) (hdgood : goodComps (parsePath dp).comps = true)
    (hsrc : pyIsDir fs env (parsePath sp) = true)
    (hsafe : is_safe_path fs env (parsePath dp) = Except.ok true)
    (hself : selfCheck fs env (parsePath sp) (parsePath dp) = Except.ok false)
    (hdst : pyIsDir fs env (parsePath dp) = true)
    (hd1 : List.isPrefixOf ((parsePath dp).comps ++ [pyName (parsePath sp)])
      (parsePath sp).comps = false)
    (hd2 : List.isPrefixOf (parsePath sp).comps
      ((parsePath dp).comps ++ [pyName (parsePath sp)]) = false)
    (hTfile : isFileFS fs ((parsePath dp).comps ++ [pyName (parsePath sp)]) = false) :
    ∃ fs3, sync_data fs env sp dp "move" =
        Except.ok ((true, msgMovedDir (parsePath sp) (parsePath dp)), fs3) ∧
      (∀ s, isDirFS fs3 (((parsePath dp).comps ++ [pyName (parsePath sp)]) ++ s) =
        isDirFS fs ((parsePath sp).comps ++ s)) ∧
      (∀ s, lookupFile fs3 (((parsePath dp).comps ++ [pyName (parsePath sp)]) ++ s) =
        lookupFile fs ((parsePath sp).comps ++ s)) ∧
      (∀ s, isDirFS fs3 ((parsePath sp).comps ++ s) = false) ∧
      (∀ s, lookupFile fs3 ((parsePath sp).comps ++ s) = none) ∧
      (∀ q, List.isPrefixOf (parsePath sp).comps q = false →
        List.isPrefixOf ((parsePath dp).comps ++ [pyName (parsePath sp)]) q = false →
        isDirFS fs3 q = isDirFS fs q ∧ lookupFile fs3 q = lookupFile fs q) := by
  have hstat : pyStat fs env (parsePath sp) = some true := pyIsDir_iff.1 hsrc
  have hex : pyExists fs env (parsePath sp) = true := by
    unfold pyExists
    rw [hstat]
    rfl
  have hprep : prepare fs env (parsePath dp) = .ok fs := by
    unfold prepare
    rw [hdst]
    simp
  have hsc : opsAbs env (parsePath sp) = (parsePath sp).comps := opsAbs_abs hsabs hsgood
  have hdc : opsAbs env (parsePath dp) = (parsePath dp).comps := opsAbs_abs hdabs hdgood
  have hsflat : isDirFS fs (parsePath sp).comps = true := by
    have h2 := pyStat_dir_flat hstat
    rwa [hsc] at h2
  have hdflat : isDirFS fs (parsePath dp).comps = true := by
    have h2 := pyStat_dir_flat (pyIsDir_iff.1 hdst)
    rwa [hdc] at h2
  have hSne : (parsePath sp).comps ≠ [] := by
    intro he
    rw [he, nil_isPre] at hd2
    exact absurd hd2 (by simp)
  have hSmem : (parsePath sp).comps ∈ fs.dirs := by
    rcases isDirFS_iff.1 hsflat with he | hm
    · exact absurd he hSne
    · exact hm
  have hTne : ((parsePath dp).comps ++ [pyName (parsePath sp)]) ≠ [] := by simp
  have hname : goodComp (pyName (parsePath sp)) = true := pyName_good hSne hsgood
  have hTgood : goodComps ((parsePath dp).comps ++ [pyName (parsePath sp)]) = true := by
    rw [goodComps, List.all_append]
    simp only [Bool.and_eq_true]
    exact ⟨hdgood, by simpa [goodComps] using hname⟩
  have hST : ∀ s, List.isPrefixOf ((parsePath dp).comps ++ [pyName (parsePath sp)])
      ((parsePath sp).comps ++ s) = false := fun s => not_pre_of_disjoint s hd1 hd2
  obtain ⟨fs2, hmatch, hF1, hF2, hF3, hF4⟩ :
      ∃ fs2,
        (if pyExists fs env ⟨(parsePath dp).isAbs,
            (parsePath dp).comps ++ [pyName (parsePath sp)]⟩ then
          rmtreeM fs ((parsePath dp).comps ++ [pyName (parsePath sp)]) else (fs, none))
          = (fs2, none) ∧
        (∀ q, List.isPrefixOf ((parsePath dp).comps ++ [pyName (parsePath sp)]) q = true →
          fs2.files.find? (fun e => e.1 == q) = none) ∧
        (∀ q, List.isPrefixOf ((parsePath dp).comps ++ [pyName (parsePath sp)]) q = false →
          fs2.files.find? (fun e => e.1 == q) = fs.files.find? (fun e => e.1 == q)) ∧
        (∀ q, List.isPrefixOf ((parsePath dp).comps ++ [pyName (parsePath sp)]) q = true →
          q ∉ fs2.dirs) ∧
        (∀ q, List.isPrefixOf ((parsePath dp).comps ++ [pyName (parsePath sp)]) q = false →
          (q ∈ fs2.dirs ↔ q ∈ fs.dirs)) := by
    by_cases hTex : isDirFS fs ((parsePath dp).comps ++ [pyName (parsePath sp)]) = true
    · have hpe : pyExists fs env ⟨(parsePath dp).isAbs,
          (parsePath dp).comps ++ [pyName (parsePath sp)]⟩ = true := by
        unfold pyExists
        rw [@pyStat_of_dir_abs fs env ⟨(parsePath dp).isAbs,
          (parsePath dp).comps ++ [pyName (parsePath sp)]⟩ hW hdabs hTgood hTex]
        rfl
      have hrm : rmtreeM fs ((parsePath dp).comps ++ [pyName (parsePath sp)]) =
          (⟨fs.dirs.filter (fun d =>
              !(List.isPrefixOf ((parsePath dp).comps ++ [pyName (parsePath sp)]) d)),
            fs.files.filter (fun e =>
              !(List.isPrefixOf ((parsePath dp).comps ++ [pyName (parsePath sp)]) e.1))⟩,
            none) := by
        unfold rmtreeM
        rw [hTex]
        simp
      refine ⟨⟨fs.dirs.filter (fun d =>
            !(List.isPrefixOf ((parsePath dp).comps ++ [pyName (parsePath sp)]) d)),
          fs.files.filter (fun e =>
            !(List.isPrefixOf ((parsePath dp).comps ++ [pyName (parsePath sp)]) e.1))⟩,
        by rw [if_pos hpe]; exact hrm, ?_, ?_, ?_, ?_⟩
      · intro q hq
        rw [@find?_filter_key fs.files
          (fun p => !(List.isPrefixOf ((parsePath dp).comps ++ [pyName (parsePath sp)]) p)) q,
          hq]
        simp
      · intro q hq
        rw [@find?_filter_key fs.files
          (fun p => !(List.isPrefixOf ((parsePath dp).comps ++ [pyName (parsePath sp)]) p)) q,
          hq]
        simp
      · intro q hq hmem
        have h2 := (List.mem_filter.1 hmem).2
        rw [hq] at h2
        simp at h2
      · intro q hq
        constructor
        · intro hmem
          exact (List.mem_filter.1 hmem).1
        · intro hmem
          exact List.mem_filter.2 ⟨hmem, by simp [hq]⟩
    · have hTexF : isDirFS fs ((parsePath dp).comps ++ [pyName (parsePath sp)]) = false := by
        cases h : isDirFS fs ((parsePath dp).comps ++ [pyName (parsePath sp)])
        · rfl
        · exact absurd h hTex
      have hpe : pyExists fs env ⟨(parsePath dp).isAbs,
          (parsePath dp).comps ++ [pyName (parsePath sp)]⟩ = false := by
        unfold pyExists pyStat
        rw [hdabs]
        simp only [if_true]
        rw [statWalk_of_none ((parsePath dp).comps ++ [pyName (parsePath sp)]) [] hTgood
          (by
            intro q r hqr hr
            have hq : q <+: (parsePath dp).comps := pre_of_concat hqr hr
            simpa using isDir_of_dir_pre hW hq hdflat)
          (by simpa using hTexF)
          (by simpa using hTfile)]
        rfl
      refine ⟨fs, by rw [if_neg (by simp [hpe])], ?_, fun q _ => rfl, ?_, fun q _ => Iff.rfl⟩
      · intro q hq
        rw [← isFileFS_eq_false_iff_find?]
        cases hqf : isFileFS fs q
        · rfl
        · exfalso
          have hpre : (parsePath dp).comps ++ [pyName (parsePath sp)] <+: q :=
            List.isPrefixOf_iff_prefix.1 hq
          by_cases heq : (parsePath dp).comps ++ [pyName (parsePath sp)] = q
          · rw [← heq] at hqf
            rw [hqf] at hTfile
            exact absurd hTfile (by simp)
          · have h3 := isDir_of_file_strict_pre hW hqf hpre heq
            rw [h3] at hTexF
            exact absurd hTexF (by simp)
      · intro q hq hmem
        have hqd : isDirFS fs q = true := isDirFS_iff.2 (Or.inr hmem)
        have hpre : (parsePath dp).comps ++ [pyName (parsePath sp)] <+: q :=
          List.isPrefixOf_iff_prefix.1 hq
        have h3 := isDir_of_dir_pre hW hpre hqd
        rw [h3] at hTexF
        exact absurd hTexF (by simp)
  have hTdir2 : isDirFS fs2 ((parsePath dp).comps ++ [pyName (parsePath sp)]) = false := by
    cases h : isDirFS fs2 ((parsePath dp).comps ++ [pyName (parsePath sp)])
    · rfl
    · exfalso
      rcases isDirFS_iff.1 h with he | hm
      · exact hTne he
      · exact hF3 _ (List.isPrefixOf_iff_prefix.2 (List.prefix_refl _)) hm
  have hTfile2 : isFileFS fs2 ((parsePath dp).comps ++ [pyName (parsePath sp)]) = false :=
    isFileFS_eq_false_iff_find?.2 (hF1 _ (List.isPrefixOf_iff_prefix.2 (List.prefix_refl _)))
  have hSdir2 : isDirFS fs2 (parsePath sp).comps = true := by
    refine isDirFS_iff.2 (Or.inr ?_)
    refine (hF4 _ ?_).2 hSmem
    have h2 := hST []
    rwa [List.append_nil] at h2
  have hmv : moveM fs2 (parsePath sp).comps (parsePath dp).comps (pyName (parsePath sp)) =
      (relocFS fs2 (parsePath sp).comps ((parsePath dp).comps ++ [pyName (parsePath sp)]),
        none) := by
    unfold moveM
    rw [hTdir2, hTfile2, hSdir2]
    simp
  have hmid : mainAction fs env (parsePath sp) (parsePath dp) "move" =
      (match moveM fs2 (parsePath sp).comps (parsePath dp).comps (pyName (parsePath sp)) with
        | (fs3, none) => ((true, msgMovedDir (parsePath sp) (parsePath dp)), fs3)
        | (fs3, some e) => ((false, msgOpError "move" e), fs3)) := by
    unfold mainAction
    rw [hsrc, hsc, hdc, hmatch]
    rfl
  have hmain : mainAction fs env (parsePath sp) (parsePath dp) "move" =
      ((true, msgMovedDir (parsePath sp) (parsePath dp)),
        relocFS fs2 (parsePath sp).comps ((parsePath dp).comps ++ [pyName (parsePath sp)])) := by
    rw [hmid, hmv]
  have hsync : sync_data fs env sp dp "move" =
      Except.ok ((true, msgMovedDir (parsePath sp) (parsePath dp)),
        relocFS fs2 (parsePath sp).comps ((parsePath dp).comps ++ [pyName (parsePath sp)])) := by
    simp [sync_data, hex, hsafe, hself, hprep, hmain]
  obtain ⟨hdirT, hdirS, hdirO⟩ := relocFS_dirs hF3 hF4 hST
  obtain ⟨hfT, hfS, hfO⟩ := relocFS_files hF1 hF2 hST
  refine ⟨relocFS fs2 (parsePath sp).comps ((parsePath dp).comps ++ [pyName (parsePath sp)]),
    hsync, ?_, hfT, ?_, hfS, ?_⟩
  · intro s
    rw [Bool.eq_iff_iff, isDirFS_iff, isDirFS_iff]
    constructor
    · rintro (he | hm)
      · exact absurd he (by simp)
      · exact Or.inr ((hdirT s).1 hm)
    · rintro (he | hm)
      · exact absurd he (by
          intro h2
          exact hSne (List.append_eq_nil.1 h2).1)
      · exact Or.inr ((hdirT s).2 hm)
  · intro s
    cases h : isDirFS (relocFS fs2 (parsePath sp).comps
        ((parsePath dp).comps ++ [pyName (parsePath sp)])) ((parsePath sp).comps ++ s)
    · rfl
    · exfalso
      rcases isDirFS_iff.1 h with he | hm
      · exact hSne (List.append_eq_nil.1 he).1
      · exact hdirS s hm
  · intro q hSq hTq
    refine ⟨?_, hfO q hSq hTq⟩
    rw [Bool.eq_iff_iff, isDirFS_iff, isDirFS_iff]
    constructor
    · rintro (he | hm)
      · exact Or.inl he
      · exact Or.inr ((hdirO q hSq hTq).1 hm)
    · rintro (he | hm)
      · exact Or.inl he
      · exact Or.inr ((hdirO q hSq hTq).2 hm)

end DataSink
namespace DataSink

/-- C6 witness: moving `/h/d/s` into `/h/dd` while `/h/dd/s` already
exists (holding `old.txt`).  The existing target directory is removed
first, the tree is relocated under the source's name, the source
disappears, and unrelated paths are untouched. -/
theorem C6_witness :
    fsW6.Wf ∧
    pyIsDir fsW6 envW (parsePath "/h/d/s") = true ∧
    isDirFS fsW6 ((parsePath "/h/dd").comps ++ [pyName (parsePath "/h/d/s")]) = true ∧
    isFileFS fsW6 (["h", "dd", "s"] ++ ["old.txt"]) = true ∧
    (∃ fs3, sync_data fsW6 envW "/h/d/s" "/h/dd" "move" =
        Except.ok ((true, msgMovedDir (parsePath "/h/d/s") (parsePath "/h/dd")), fs3) ∧
      (∀ s, isDirFS fs3 (((parsePath "/h/dd").comps ++ [pyName (parsePath "/h/d/s")]) ++ s) =
        isDirFS fsW6 ((parsePath "/h/d/s").comps ++ s)) ∧
      (∀ s, lookupFile fs3 (((parsePath "/h/dd").comps ++ [pyName (parsePath "/h/d/s")]) ++ s) =
        lookupFile fsW6 ((parsePath "/h/d/s").comps ++ s)) ∧
      (∀ s, isDirFS fs3 ((parsePath "/h/d/s").comps ++ s) = false) ∧
      (∀ s, lookupFile fs3 ((parsePath "/h/d/s").comps ++ s) = none) ∧
      (∀ q, List.isPrefixOf (parsePath "/h/d/s").comps q = false →
        List.isPrefixOf ((parsePath "/h/dd").comps ++ [pyName (parsePath "/h/d/s")]) q = false →
        isDirFS fs3 q = isDirFS fsW6 q ∧ lookupFile fs3 q = lookupFile fsW6 q)) :=
  ⟨by decide, by rfl, by rfl, by rfl,
    C6_move_destructive_overwrite fsW6 envW "/h/d/s" "/h/dd" (by decide)
      (by rfl) (by rfl) (by rfl) (by rfl) (by rfl) (by rfl) (by rfl) (by rfl)
      (by rfl) (by rfl) (by rfl)⟩

/-- C6 counterexample: for `D = parent(S)` (here `S = /h/d/s`,
`D = /h/d`) the real move target `D/name(S)` is `S` itself, which exists
as a directory, so `shutil.rmtree` deletes the source tree first and
`shutil.move` then raises `FileNotFoundError`: the call returns a failure
while the source has been destroyed — the claimed always-successful
destructive overwrite does not hold. -/
theorem C6_counterexample :
    pyIsDir fsW envW (parsePath "/h/d/s") = true ∧
    is_safe_path fsW envW (parsePath "/h/d") = Except.ok true ∧
    pyIsDir fsW envW (parsePath "/h/d") = true ∧
    selfCheck fsW envW (parsePath "/h/d/s") (parsePath "/h/d") = Except.ok false ∧
    sync_data fsW envW "/h/d/s" "/h/d" "move" =
      Except.ok ((false,
        msgOpError "move" (PyExc.fileNotFound "[Errno 2] No such file or directory")),
        ⟨[["h"], ["h", "d"], ["h", "dd"], ["etc"]], [(["etc", "pw"], "secret")]⟩) ∧
    pyExists (⟨[["h"], ["h", "d"], ["h", "dd"], ["etc"]],
      [(["etc", "pw"], "secret")]⟩ : FS) envW (parsePath "/h/d/s") = false :=
  ⟨by rfl, by rfl, by rfl, by rfl, by rfl, by rfl⟩

end DataSink
namespace DataSink

theorem walkStrict_clean {fs : FS} :
    ∀ (l : List String) (acc : Comps), goodComps l = true →
      (∀ q r, q ++ r = l → isDirFS fs (acc ++ q) = true) →
      (∀ q r, q ++ r = l → isFileFS fs (acc ++ q) = false) →
      walkStrict fs acc l = .ok (acc ++ l) := by
  intro l
  induction l with
  | nil =>
    intro acc _ _ _
    simp [walkStrict]
  | cons c rest ih =>
    intro acc hg hdirs hfiles
    obtain ⟨hc, hrest⟩ := goodComps_cons.1 hg
    have hassoc : acc ++ c :: rest = (acc ++ [c]) ++ rest := by simp
    have haccf : isFileFS fs acc = false := by
      have h2 := hfiles [] (c :: rest) rfl
      simpa using h2
    have haccd1 : isDirFS fs (acc ++ [c]) = true := hdirs [c] rest rfl
    rw [walkStrict, goodComp_not_dots hc, haccf]
    simp only [Bool.false_eq_true, if_false, haccd1, Bool.true_or, if_true]
    rw [ih (acc ++ [c]) hrest
      (fun q r hqr => by
        have h2 := hdirs (c :: q) r (by rw [List.cons_append, hqr])
        rwa [List.append_cons acc c q] at h2)
      (fun q r hqr => by
        have h2 := hfiles (c :: q) r (by rw [List.cons_append, hqr])
        rwa [List.append_cons acc c q] at h2)]
    rw [hassoc]

theorem resolveStrict_clean {fs fs1 : FS} {env : Env} {p : PyPath} (hW : fs.Wf)
    (habs : p.isAbs = true) (hg : goodComps p.comps = true)
    (hd : isDirFS fs p.comps = true)
    (hmono : ∀ q, isDirFS fs q = true → isDirFS fs1 q = true)
    (hnof : ∀ q, isDirFS fs q = true → isFileFS fs1 q = false) :
    resolveStrict fs1 env p = .ok p.comps := by
  unfold resolveStrict
  rw [habs]
  simp only [if_true]
  have h2 := @walkStrict_clean fs1 p.comps [] hg
    (fun q r hqr => by
      have h3 : isDirFS fs q = true := isDir_of_dir_pre hW ⟨r, hqr⟩ hd
      simpa using hmono q h3)
    (fun q r hqr => by
      have h3 : isDirFS fs q = true := isDir_of_dir_pre hW ⟨r, hqr⟩ hd
      simpa using hnof q h3)
  simpa using h2

theorem is_safe_path_ok_eval {fs : FS} {env : Env} {p : PyPath} {a : Comps}
    (hp : resolveStrict fs env p = .ok a)
    (hhome : resolveStrict fs env ⟨true, env.home⟩ = .ok env.home)
    (hcwd0 : pyCwd fs env = .ok env.cwd)
    (hcwd : resolveStrict fs env ⟨true, env.cwd⟩ = .ok env.cwd) :
    is_safe_path fs env p = .ok (inOrEq a env.home || inOrEq a env.cwd) := by
  unfold is_safe_path
  simp [hp, hhome, hcwd0, hcwd, bind, Except.bind, pure, Except.pure]

theorem selfCheck_abs_congr {fs fs1 : FS} {env : Env} {s d : PyPath}
    (hs : s.isAbs = true) (hd : d.isAbs = true) :
    selfCheck fs1 env s d = selfCheck fs env s d := by
  unfold selfCheck resolveNS pyAbspath
  rw [hs, hd]
  rfl

theorem pyStat_mono_dir {fs fs1 : FS} {env : Env} {p : PyPath}
    (hmono : ∀ q, isDirFS fs q = true → isDirFS fs1 q = true)
    (h : pyStat fs env p = some true) : pyStat fs1 env p = some true := by
  unfold pyStat at h ⊢
  exact statWalk_mono_dir hmono p.comps _ h

theorem ctApply_mem_dirs {fs : FS} {S T q : Comps} :
    q ∈ (ctApply fs S T).dirs ↔
      q = T ∨ q ∈ fs.dirs ∨ ∃ s, q = T ++ s ∧ S ++ s ∈ fs.dirs := by
  show q ∈ (T :: fs.dirs) ++ fs.dirs.filterMap (fun d => (relTo S d).map (fun s => T ++ s)) ↔ _
  rw [List.cons_append, List.mem_cons, List.mem_append, mem_dirs_image]

theorem ctApply_dirs_mono {fs : FS} {S T q : Comps}
    (h : isDirFS fs q = true) : isDirFS (ctApply fs S T) q = true := by
  rcases isDirFS_iff.1 h with he | hm
  · exact isDirFS_iff.2 (Or.inl he)
  · exact isDirFS_iff.2 (Or.inr (ctApply_mem_dirs.2 (Or.inr (Or.inl hm))))

theorem isFileFS_eq_false_iff_lookup {fs : FS} {q : Comps} :
    isFileFS fs q = false ↔ lookupFile fs q = none := by
  rw [isFileFS_eq_false_iff_find?, lookupFile]
  cases fs.files.find? (fun e => e.1 == q) <;> simp

theorem ctApply_find?_split {fs : FS} {S T : Comps} (q : Comps) :
    (ctApply fs S T).files.find? (fun e => e.1 == q) =
      ((fs.files.filter (fun e => match relTo T e.1 with
          | some s2 => !(isFileFS fs (S ++ s2))
          | none => true)).find? (fun e => e.1 == q)).or
        ((fs.files.filterMap (fun e => (relTo S e.1).map (fun s2 => (T ++ s2, e.2)))).find?
          (fun e => e.1 == q)) :=
  List.find?_append

theorem ctApply_lookup_T_src {fs : FS} {S T : Comps} (s : Comps)
    (hf : isFileFS fs (S ++ s) = true) :
    lookupFile (ctApply fs S T) (T ++ s) = lookupFile fs (S ++ s) := by
  unfold lookupFile
  rw [ctApply_find?_split (T ++ s),
    @find?_filter_key fs.files (fun p => match relTo T p with
      | some s2 => !(isFileFS fs (S ++ s2))
      | none => true) (T ++ s),
    find?_image fs.files S T (T ++ s),
    show relTo T (T ++ s) = some s from relTo_eq_some.2 rfl,
    show List.isPrefixOf T (T ++ s) = true from
      List.isPrefixOf_iff_prefix.2 (List.prefix_append _ _),
    if_pos rfl, List.drop_left]
  obtain ⟨e, he⟩ : ∃ e, fs.files.find? (fun x => x.1 == S ++ s) = some e := by
    cases h2 : fs.files.find? (fun x => x.1 == S ++ s)
    · exact absurd (isFileFS_eq_false_iff_find?.2 h2) (by simp [hf])
    · exact ⟨_, rfl⟩
  rw [he]
  simp [hf]

theorem ctApply_lookup_T_keep {fs : FS} {S T : Comps} (s : Comps)
    (hf : isFileFS fs (S ++ s) = false) :
    lookupFile (ctApply fs S T) (T ++ s) = lookupFile fs (T ++ s) := by
  unfold lookupFile
  rw [ctApply_find?_split (T ++ s),
    @find?_filter_key fs.files (fun p => match relTo T p with
      | some s2 => !(isFileFS fs (S ++ s2))
      | none => true) (T ++ s),
    find?_image fs.files S T (T ++ s),
    show relTo T (T ++ s) = some s from relTo_eq_some.2 rfl,
    show List.isPrefixOf T (T ++ s) = true from
      List.isPrefixOf_iff_prefix.2 (List.prefix_append _ _),
    if_pos rfl, List.drop_left,
    isFileFS_eq_false_iff_find?.1 hf]
  simp [hf]

theorem ctApply_lookup_other {fs : FS} {S T q : Comps}
    (hTq : List.isPrefixOf T q = false) :
    lookupFile (ctApply fs S T) q = lookupFile fs q := by
  unfold lookupFile
  rw [ctApply_find?_split q,
    @find?_filter_key fs.files (fun p => match relTo T p with
      | some s2 => !(isFileFS fs (S ++ s2))
      | none => true) q,
    find?_image fs.files S T q,
    show relTo T q = none from by simp [relTo, hTq],
    hTq]
  simp

theorem ctApply_dir_other {fs : FS} {S T q : Comps}
    (hTq : List.isPrefixOf T q = false) :
    isDirFS (ctApply fs S T) q = isDirFS fs q := by
  rw [Bool.eq_iff_iff, isDirFS_iff, isDirFS_iff]
  constructor
  · rintro (he | hm)
    · exact Or.inl he
    · rcases ctApply_mem_dirs.1 hm with he2 | hm2 | ⟨s2, he2, _⟩
      · subst he2
        rw [List.isPrefixOf_iff_prefix.2 (List.prefix_refl _)] at hTq
        exact absurd hTq (by simp)
      · exact Or.inr hm2
      · rw [he2, List.isPrefixOf_iff_prefix.2 (List.prefix_append _ _)] at hTq
        exact absurd hTq (by simp)
  · rintro (he | hm)
    · exact Or.inl he
    · exact Or.inr (ctApply_mem_dirs.2 (Or.inr (Or.inl hm)))

theorem ctApply_no_file_on_dir {fs : FS} {S T q : Comps} (hW : fs.Wf)
    (hne2 : ∀ s, isFileFS fs (S ++ s) = true → isDirFS fs (T ++ s) = false)
    (hq : isDirFS fs q = true) : isFileFS (ctApply fs S T) q = false := by
  by_cases hTq : List.isPrefixOf T q = true
  · obtain ⟨t, ht⟩ := List.isPrefixOf_iff_prefix.1 hTq
    subst ht
    cases hf : isFileFS fs (S ++ t) with
    | true =>
      rw [hne2 t hf] at hq
      exact absurd hq (by simp)
    | false =>
      rw [isFileFS_eq_false_iff_lookup, ctApply_lookup_T_keep t hf,
        ← isFileFS_eq_false_iff_lookup]
      exact wf_not_file_of_dir hW hq
  · have hTq2 : List.isPrefixOf T q = false := by
      cases h2 : List.isPrefixOf T q
      · rfl
      · exact absurd h2 hTq
    rw [isFileFS_eq_false_iff_lookup, ctApply_lookup_other hTq2,
      ← isFileFS_eq_false_iff_lookup]
    exact wf_not_file_of_dir hW hq

theorem isFileFS_true_of_lookup_eq {fs fs1 : FS} {p q : Comps}
    (h : lookupFile fs1 p = lookupFile fs q) (hf : isFileFS fs1 p = true) :
    isFileFS fs q = true := by
  cases hq : isFileFS fs q
  · exfalso
    rw [isFileFS_eq_false_iff_lookup.1 hq] at h
    have h2 := isFileFS_eq_false_iff_lookup.2 h
    rw [h2] at hf
    exact absurd hf (by simp)
  · rfl

end DataSink
namespace DataSink

theorem copytreeErr_parts {fs : FS} {S T : Comps} (h : copytreeErr fs S T = false) :
    (∀ s, isFileFS fs (S ++ s) = true → isDirFS fs (T ++ s) = false) ∧
    (∀ s, S ++ s ∈ fs.dirs → isFileFS fs (T ++ s) = false) := by
  unfold copytreeErr at h
  simp only [Bool.or_eq_false_iff, List.any_eq_false] at h
  obtain ⟨⟨-, h2⟩, h3⟩ := h
  constructor
  · intro s hf
    obtain ⟨e, hmem, hkey2⟩ : ∃ e, e ∈ fs.files ∧ e.1 = S ++ s := by
      have h4 : fs.files.any (fun e => e.1 == S ++ s) = true := hf
      simpa [List.any_eq_true] using h4
    have h5 := h2 e hmem
    rw [hkey2, show relTo S (S ++ s) = some s from relTo_eq_some.2 rfl] at h5
    simpa using h5
  · intro s hmem
    have h5 := h3 (S ++ s) hmem
    rw [show relTo S (S ++ s) = some s from relTo_eq_some.2 rfl] at h5
    simpa using h5

theorem ctApply_mem_files {fs : FS} {S T : Comps} {e : Comps × String} :
    e ∈ (ctApply fs S T).files ↔
      (e ∈ fs.files ∧ (match relTo T e.1 with
        | some s2 => !(isFileFS fs (S ++ s2))
        | none => true) = true) ∨
      ∃ a s, a ∈ fs.files ∧ a.1 = S ++ s ∧ e = (T ++ s, a.2) := by
  show e ∈ fs.files.filter (fun x => match relTo T x.1 with
      | some s2 => !(isFileFS fs (S ++ s2))
      | none => true)
    ++ fs.files.filterMap (fun x => (relTo S x.1).map (fun s2 => (T ++ s2, x.2))) ↔ _
  rw [List.mem_append, List.mem_filter, List.mem_filterMap]
  constructor
  · rintro (⟨hm, hp⟩ | ⟨a, ha, hmap⟩)
    · exact Or.inl ⟨hm, hp⟩
    · rw [Option.map_eq_some'] at hmap
      obtain ⟨s, hs1, hs2⟩ := hmap
      exact Or.inr ⟨a, s, ha, relTo_eq_some.1 hs1, hs2.symm⟩
  · rintro (⟨hm, hp⟩ | ⟨a, s, ha, hkey, he⟩)
    · exact Or.inl ⟨hm, hp⟩
    · refine Or.inr ⟨a, ha, ?_⟩
      rw [show relTo S a.1 = some s from relTo_eq_some.2 hkey, he]
      rfl

theorem copytreeErr_ct {fs : FS} {S T : Comps} (hW : fs.Wf)
    (hSmem : S ∈ fs.dirs) (hSneT : S ≠ T)
    (hd1 : List.isPrefixOf T S = false) (hd2 : List.isPrefixOf S T = false)
    (hne : copytreeErr fs S T = false) :
    copytreeErr (ctApply fs S T) S T = false := by
  obtain ⟨hp1, hp2⟩ := copytreeErr_parts hne
  have hTne : T ≠ [] := by
    intro he
    rw [he, nil_isPre] at hd1
    exact absurd hd1 (by simp)
  have hTS : ∀ s, List.isPrefixOf S (T ++ s) = false := fun s => not_pre_of_disjoint s hd2 hd1
  unfold copytreeErr
  simp only [Bool.or_eq_false_iff]
  refine ⟨⟨?_, ?_⟩, ?_⟩
  · rw [beq_eq_false_iff_ne.2 hSneT]
    rfl
  · rw [List.any_eq_false]
    intro e hmem
    rcases ctApply_mem_files.1 hmem with ⟨hm, -⟩ | ⟨a, s2, ha, hkey, he⟩
    · cases hrel : relTo S e.1 with
      | none => simp [hrel]
      | some s =>
        have hkey2 : e.1 = S ++ s := relTo_eq_some.1 hrel
        have hgoal : isDirFS (ctApply fs S T) (T ++ s) = false := by
          cases hd : isDirFS (ctApply fs S T) (T ++ s)
          · rfl
          · exfalso
            rcases isDirFS_iff.1 hd with he2 | hm2
            · exact hTne (List.append_eq_nil.1 he2).1
            · rcases ctApply_mem_dirs.1 hm2 with he3 | hm3 | ⟨s3, he3, hm3⟩
              · have hs0 : s = [] :=
                  List.append_cancel_left (by rw [List.append_nil]; exact he3)
                rw [hs0, List.append_nil] at hkey2
                have h6 := (hW.2.1 e hm).2.2.2
                rw [hkey2] at h6
                exact h6 hSmem
              · have hf : isFileFS fs (S ++ s) = true := by
                  rw [isFileFS, List.any_eq_true]
                  exact ⟨e, hm, by simp [hkey2]⟩
                have h8 : isDirFS fs (T ++ s) = true := isDirFS_iff.2 (Or.inr hm3)
                rw [hp1 s hf] at h8
                exact absurd h8 (by simp)
              · have hs : s = s3 := List.append_cancel_left he3
                subst hs
                have h6 := (hW.2.1 e hm).2.2.2
                rw [hkey2] at h6
                exact h6 hm3
        simp [hrel, hgoal]
    · rw [he]
      simp [show relTo S (T ++ s2) = none from by simp [relTo, hTS s2]]
  · rw [List.any_eq_false]
    intro d hmem
    rcases ctApply_mem_dirs.1 hmem with he3 | hm3 | ⟨s3, he3, hm3⟩
    · rw [he3]
      simp [show relTo S T = none from by simp [relTo, hd2]]
    · cases hrel : relTo S d with
      | none => simp [hrel]
      | some s =>
        have hkey2 : d = S ++ s := relTo_eq_some.1 hrel
        have hSdirs : S ++ s ∈ fs.dirs := hkey2 ▸ hm3
        have hgoal : isFileFS (ctApply fs S T) (T ++ s) = false := by
          have hf : isFileFS fs (S ++ s) = false :=
            wf_not_file_of_dir hW (isDirFS_iff.2 (Or.inr hSdirs))
          rw [isFileFS_eq_false_iff_lookup, ctApply_lookup_T_keep s hf,
            ← isFileFS_eq_false_iff_lookup]
          exact hp2 s hSdirs
        simp [hrel, hgoal]
    · rw [he3]
      simp [show relTo S (T ++ s3) = none from by simp [relTo, hTS s3]]

end DataSink
namespace DataSink

/-- C5: idempotence of the directory copy under the merge policy —
amended.  The claim holds when the copy target `D/name(S)` is disjoint
from `S` (neither path a prefix of the other) and nothing under it
conflicts in type with the source tree (`copytreeErr` is false — in
particular no file sits where a directory must go): both calls succeed
with the same message, `D/name(S)` exists and is the only subdirectory of
`D` the call creates, every source file is mirrored under it, the source
is untouched, and the second call leaves an extensionally identical
filesystem.  The unrestricted claim is false: for `D = parent(S)` — a
destination that is *not* nested in S — the target `D/name(S)` is `S`
itself and `shutil.copytree` raises `SameFileError` on every file, so the
first call already fails (see the counterexample). -/
theorem C5_copy_idempotent (fs : FS) (env : Env) (sp dp : String)
    (hW : fs.Wf) (hE : EnvOk fs env)
    (hsabs : (parsePath sp).isAbs = true) (hsgood : goodComps (parsePath sp).comps = true)
    (hdabs : (parsePath dp).isAbs = true) (hdgood : goodComps (parsePath dp).comps = true)
    (hsrc : pyIsDir fs env (parsePath sp) = true)
    (hsafe : is_safe_path fs env (parsePath dp) = Except.ok true)
    (hself : selfCheck fs env (parsePath sp) (parsePath dp) = Except.ok false)
    (hdst : pyIsDir fs env (parsePath dp) = true)
    (hd1 : List.isPrefixOf ((parsePath dp).comps ++ [pyName (parsePath sp)])
      (parsePath sp).comps = false)
    (hd2 : List.isPrefixOf (parsePath sp).comps
      ((parsePath dp).comps ++ [pyName (parsePath sp)]) = false)
    (hne : copytreeErr fs (parsePath sp).comps
      ((parsePath dp).comps ++ [pyName (parsePath sp)]) = false) :
    ∃ fs1 fs2,
      sync_data fs env sp dp "copy" = Except.ok ((true, msgCopiedDir (parsePath sp)
        ⟨(parsePath dp).isAbs, (parsePath dp).comps ++ [pyName (parsePath sp)]⟩), fs1) ∧
      sync_data fs1 env sp dp "copy" = Except.ok ((true, msgCopiedDir (parsePath sp)
        ⟨(parsePath dp).isAbs, (parsePath dp).comps ++ [pyName (parsePath sp)]⟩), fs2) ∧
      isDirFS fs1 ((parsePath dp).comps ++ [pyName (parsePath sp)]) = true ∧
      (∀ c, isDirFS fs1 ((parsePath dp).comps ++ [c]) = true →
        c = pyName (parsePath sp) ∨ isDirFS fs ((parsePath dp).comps ++ [c]) = true) ∧
      (∀ s, isDirFS fs ((parsePath sp).comps ++ s) = true →
        isDirFS fs1 (((parsePath dp).comps ++ [pyName (parsePath sp)]) ++ s) = true) ∧
      (∀ s, isFileFS fs ((parsePath sp).comps ++ s) = true →
        lookupFile fs1 (((parsePath dp).comps ++ [pyName (parsePath sp)]) ++ s) =
          lookupFile fs ((parsePath sp).comps ++ s)) ∧
      (∀ s, isDirFS fs1 ((parsePath sp).comps ++ s) = isDirFS fs ((parsePath sp).comps ++ s) ∧
        lookupFile fs1 ((parsePath sp).comps ++ s) = lookupFile fs ((parsePath sp).comps ++ s)) ∧
      FSequiv fs2 fs1 := by
  obtain ⟨hgh, hgc, hdh, hdcw⟩ := hE
  obtain ⟨hp1, hp2⟩ := copytreeErr_parts hne
  have hstat : pyStat fs env (parsePath sp) = some true := pyIsDir_iff.1 hsrc
  have hex : pyExists fs env (parsePath sp) = true := by
    unfold pyExists
    rw [hstat]
    rfl
  have hprep : prepare fs env (parsePath dp) = .ok fs := by
    unfold prepare
    rw [hdst]
    simp
  have hsc : opsAbs env (parsePath sp) = (parsePath sp).comps := opsAbs_abs hsabs hsgood
  have hdc : opsAbs env (parsePath dp) = (parsePath dp).comps := opsAbs_abs hdabs hdgood
  have hsflat : isDirFS fs (parsePath sp).comps = true := by
    have h2 := pyStat_dir_flat hstat
    rwa [hsc] at h2
  have hdflat : isDirFS fs (parsePath dp).comps = true := by
    have h2 := pyStat_dir_flat (pyIsDir_iff.1 hdst)
    rwa [hdc] at h2
  have hSne : (parsePath sp).comps ≠ [] := by
    intro he
    rw [he, nil_isPre] at hd2
    exact absurd hd2 (by simp)
  have hSmem : (parsePath sp).comps ∈ fs.dirs := by
    rcases isDirFS_iff.1 hsflat with he | hm
    · exact absurd he hSne
    · exact hm
  have hSneT : (parsePath sp).comps ≠ ((parsePath dp).comps ++ [pyName (parsePath sp)]) := by
    intro he
    rw [he, List.isPrefixOf_iff_prefix.2 (List.prefix_refl _)] at hd2
    exact absurd hd2 (by simp)
  have hST : ∀ s, List.isPrefixOf ((parsePath dp).comps ++ [pyName (parsePath sp)])
      ((parsePath sp).comps ++ s) = false := fun s => not_pre_of_disjoint s hd1 hd2
  have hTS : ∀ s, List.isPrefixOf (parsePath sp).comps
      (((parsePath dp).comps ++ [pyName (parsePath sp)]) ++ s) = false :=
    fun s => not_pre_of_disjoint s hd2 hd1
  have hmono : ∀ q, isDirFS fs q = true →
      isDirFS (ctApply fs (parsePath sp).comps
        ((parsePath dp).comps ++ [pyName (parsePath sp)])) q = true :=
    fun q h => ctApply_dirs_mono h
  have hnof : ∀ q, isDirFS fs q = true →
      isFileFS (ctApply fs (parsePath sp).comps
        ((parsePath dp).comps ++ [pyName (parsePath sp)])) q = false :=
    fun q h => ctApply_no_file_on_dir hW hp1 h
  have hct1 : copytreeM fs (parsePath sp).comps
      ((parsePath dp).comps ++ [pyName (parsePath sp)]) =
      (ctApply fs (parsePath sp).comps ((parsePath dp).comps ++ [pyName (parsePath sp)]),
        none) := by
    unfold copytreeM
    rw [hne]
    simp
  have hmain1 : mainAction fs env (parsePath sp) (parsePath dp) "copy" =
      ((true, msgCopiedDir (parsePath sp)
        ⟨(parsePath dp).isAbs, (parsePath dp).comps ++ [pyName (parsePath sp)]⟩),
        ctApply fs (parsePath sp).comps ((parsePath dp).comps ++ [pyName (parsePath sp)])) := by
    unfold mainAction
    rw [hsrc, hsc, hdc, hct1]
    rfl
  have hsync1 : sync_data fs env sp dp "copy" =
      Except.ok ((true, msgCopiedDir (parsePath sp)
        ⟨(parsePath dp).isAbs, (parsePath dp).comps ++ [pyName (parsePath sp)]⟩),
        ctApply fs (parsePath sp).comps ((parsePath dp).comps ++ [pyName (parsePath sp)])) := by
    simp [sync_data, hex, hsafe, hself, hprep, hmain1]
  have hresD : resolveStrict fs env (parsePath dp) = .ok (parsePath dp).comps :=
    resolveStrict_clean hW hdabs hdgood hdflat (fun q h => h)
      (fun q h => wf_not_file_of_dir hW h)
  have hresH : resolveStrict fs env ⟨true, env.home⟩ = .ok env.home :=
    resolveStrict_dir hW hgh hdh
  have hresC : resolveStrict fs env ⟨true, env.cwd⟩ = .ok env.cwd :=
    resolveStrict_dir hW hgc hdcw
  have hcwd0 : pyCwd fs env = .ok env.cwd := pyCwd_ok hdcw
  have hb : (inOrEq (parsePath dp).comps env.home ||
      inOrEq (parsePath dp).comps env.cwd) = true := by
    rw [is_safe_path_ok_eval hresD hresH hcwd0 hresC] at hsafe
    injection hsafe
  have hresD1 : resolveStrict (ctApply fs (parsePath sp).comps
      ((parsePath dp).comps ++ [pyName (parsePath sp)])) env (parsePath dp) =
      .ok (parsePath dp).comps :=
    resolveStrict_clean hW hdabs hdgood hdflat hmono hnof
  have hresH1 : resolveStrict (ctApply fs (parsePath sp).comps
      ((parsePath dp).comps ++ [pyName (parsePath sp)])) env ⟨true, env.home⟩ =
      .ok env.home :=
    resolveStrict_clean hW rfl hgh hdh hmono hnof
  have hresC1 : resolveStrict (ctApply fs (parsePath sp).comps
      ((parsePath dp).comps ++ [pyName (parsePath sp)])) env ⟨true, env.cwd⟩ =
      .ok env.cwd :=
    resolveStrict_clean hW rfl hgc hdcw hmono hnof
  have hcwd1 : pyCwd (ctApply fs (parsePath sp).comps
      ((parsePath dp).comps ++ [pyName (parsePath sp)])) env = .ok env.cwd :=
    pyCwd_ok (hmono _ hdcw)
  have hsafe2 : is_safe_path (ctApply fs (parsePath sp).comps
      ((parsePath dp).comps ++ [pyName (parsePath sp)])) env (parsePath dp) =
      .ok true := by
    rw [is_safe_path_ok_eval hresD1 hresH1 hcwd1 hresC1, hb]
  have hself2 : selfCheck (ctApply fs (parsePath sp).comps
      ((parsePath dp).comps ++ [pyName (parsePath sp)])) env (parsePath sp) (parsePath dp) =
      .ok false :=
    (selfCheck_abs_congr hsabs hdabs).trans hself
  have hex2 : pyExists (ctApply fs (parsePath sp).comps
      ((parsePath dp).comps ++ [pyName (parsePath sp)])) env (parsePath sp) = true := by
    unfold pyExists
    rw [pyStat_mono_dir hmono hstat]
    rfl
  have hsrc2 : pyIsDir (ctApply fs (parsePath sp).comps
      ((parsePath dp).comps ++ [pyName (parsePath sp)])) env (parsePath sp) = true :=
    pyIsDir_iff.2 (pyStat_mono_dir hmono hstat)
  have hdst2 : pyIsDir (ctApply fs (parsePath sp).comps
      ((parsePath dp).comps ++ [pyName (parsePath sp)])) env (parsePath dp) = true :=
    pyIsDir_iff.2 (pyStat_mono_dir hmono (pyIsDir_iff.1 hdst))
  have hprep2 : prepare (ctApply fs (parsePath sp).comps
      ((parsePath dp).comps ++ [pyName (parsePath sp)])) env (parsePath dp) =
      .ok (ctApply fs (parsePath sp).comps
        ((parsePath dp).comps ++ [pyName (parsePath sp)])) := by
    unfold prepare
    rw [hdst2]
    simp
  have hct2 : copytreeM (ctApply fs (parsePath sp).comps
      ((parsePath dp).comps ++ [pyName (parsePath sp)])) (parsePath sp).comps
      ((parsePath dp).comps ++ [pyName (parsePath sp)]) =
      (ctApply (ctApply fs (parsePath sp).comps
          ((parsePath dp).comps ++ [pyName (parsePath sp)])) (parsePath sp).comps
        ((parsePath dp).comps ++ [pyName (parsePath sp)]), none) := by
    unfold copytreeM
    rw [copytreeErr_ct hW hSmem hSneT hd1 hd2 hne]
    simp
  have hmain2 : mainAction (ctApply fs (parsePath sp).comps
      ((parsePath dp).comps ++ [pyName (parsePath sp)])) env (parsePath sp) (parsePath dp)
      "copy" =
      ((true, msgCopiedDir (parsePath sp)
        ⟨(parsePath dp).isAbs, (parsePath dp).comps ++ [pyName (parsePath sp)]⟩),
        ctApply (ctApply fs (parsePath sp).comps
          ((parsePath dp).comps ++ [pyName (parsePath sp)])) (parsePath sp).comps
        ((parsePath dp).comps ++ [pyName (parsePath sp)])) := by
    unfold mainAction
    rw [hsrc2, hsc, hdc, hct2]
    rfl
  have hsync2 : sync_data (ctApply fs (parsePath sp).comps
      ((parsePath dp).comps ++ [pyName (parsePath sp)])) env sp dp "copy" =
      Except.ok ((true, msgCopiedDir (parsePath sp)
        ⟨(parsePath dp).isAbs, (parsePath dp).comps ++ [pyName (parsePath sp)]⟩),
        ctApply (ctApply fs (parsePath sp).comps
          ((parsePath dp).comps ++ [pyName (parsePath sp)])) (parsePath sp).comps
        ((parsePath dp).comps ++ [pyName (parsePath sp)])) := by
    simp [sync_data, hex2, hsafe2, hself2, hprep2, hmain2]
  refine ⟨ctApply fs (parsePath sp).comps ((parsePath dp).comps ++ [pyName (parsePath sp)]),
    ctApply (ctApply fs (parsePath sp).comps
      ((parsePath dp).comps ++ [pyName (parsePath sp)])) (parsePath sp).comps
      ((parsePath dp).comps ++ [pyName (parsePath sp)]),
    hsync1, hsync2, ?_, ?_, ?_, ?_, ?_, ?_⟩
  · exact isDirFS_iff.2 (Or.inr (ctApply_mem_dirs.2 (Or.inl rfl)))
  · intro c h
    rcases isDirFS_iff.1 h with he | hm
    · exact absurd he (by simp)
    · rcases ctApply_mem_dirs.1 hm with he2 | hm2 | ⟨s2, he2, -⟩
      · left
        have h2 : [c] = [pyName (parsePath sp)] := List.append_cancel_left he2
        simpa using h2
      · right
        exact isDirFS_iff.2 (Or.inr hm2)
      · left
        rw [List.append_assoc, List.singleton_append] at he2
        have h2 : [c] = pyName (parsePath sp) :: s2 := List.append_cancel_left he2
        simp at h2
        exact h2.1
  · intro s h
    rcases isDirFS_iff.1 h with he | hm
    · exact absurd (List.append_eq_nil.1 he).1 hSne
    · exact isDirFS_iff.2 (Or.inr (ctApply_mem_dirs.2 (Or.inr (Or.inr ⟨s, rfl, hm⟩))))
  · intro s hf
    exact ctApply_lookup_T_src s hf
  · intro s
    exact ⟨ctApply_dir_other (hST s), ctApply_lookup_other (hST s)⟩
  · constructor
    · intro p
      by_cases hTp : List.isPrefixOf ((parsePath dp).comps ++ [pyName (parsePath sp)]) p = true
      · obtain ⟨t, ht⟩ := List.isPrefixOf_iff_prefix.1 hTp
        subst ht
        rw [Bool.eq_iff_iff, isDirFS_iff, isDirFS_iff]
        constructor
        · rintro (he | hm)
          · exact Or.inl he
          · rcases ctApply_mem_dirs.1 hm with he2 | hm2 | ⟨s2, he2, hm2⟩
            · rw [he2]
              exact Or.inr (ctApply_mem_dirs.2 (Or.inl rfl))
            · exact Or.inr hm2
            · have hs : t = s2 := List.append_cancel_left he2
              subst hs
              have hm3 : (parsePath sp).comps ++ t ∈ fs.dirs := by
                rcases ctApply_mem_dirs.1 hm2 with he4 | hm4 | ⟨s4, he4, -⟩
                · exfalso
                  have h9 : List.isPrefixOf (parsePath sp).comps
                      ((parsePath dp).comps ++ [pyName (parsePath sp)]) = true := by
                    rw [← he4]
                    exact List.isPrefixOf_iff_prefix.2 (List.prefix_append _ _)
                  rw [hd2] at h9
                  exact absurd h9 (by simp)
                · exact hm4
                · exfalso
                  have h9 := hST t
                  rw [he4, List.isPrefixOf_iff_prefix.2 (List.prefix_append _ _)] at h9
                  exact absurd h9 (by simp)
              exact Or.inr (ctApply_mem_dirs.2 (Or.inr (Or.inr ⟨t, rfl, hm3⟩)))
        · rintro (he | hm)
          · exact Or.inl he
          · exact Or.inr (ctApply_mem_dirs.2 (Or.inr (Or.inl hm)))
      · have hTp2 : List.isPrefixOf ((parsePath dp).comps ++ [pyName (parsePath sp)]) p =
            false := by
          cases h2 : List.isPrefixOf ((parsePath dp).comps ++ [pyName (parsePath sp)]) p
          · rfl
          · exact absurd h2 hTp
        exact ctApply_dir_other hTp2
    · intro p
      by_cases hTp : List.isPrefixOf ((parsePath dp).comps ++ [pyName (parsePath sp)]) p = true
      · obtain ⟨t, ht⟩ := List.isPrefixOf_iff_prefix.1 hTp
        subst ht
        cases hf : isFileFS (ctApply fs (parsePath sp).comps
            ((parsePath dp).comps ++ [pyName (parsePath sp)]))
            ((parsePath sp).comps ++ t) with
        | true =>
          have hfs : isFileFS fs ((parsePath sp).comps ++ t) = true :=
            isFileFS_true_of_lookup_eq (ctApply_lookup_other (hST t)) hf
          rw [ctApply_lookup_T_src t hf, ctApply_lookup_other (hST t),
            ctApply_lookup_T_src t hfs]
        | false =>
          rw [ctApply_lookup_T_keep t hf]
      · have hTp2 : List.isPrefixOf ((parsePath dp).comps ++ [pyName (parsePath sp)]) p =
            false := by
          cases h2 : List.isPrefixOf ((parsePath dp).comps ++ [pyName (parsePath sp)]) p
          · rfl
          · exact absurd h2 hTp
        exact ctApply_lookup_other hTp2

end DataSink
namespace DataSink

/-- C5 witness: copying `/h/d/s` into `/h/dd` twice on the concrete
fixture — both runs succeed with the same message, `/h/dd/s` is the only
subdirectory the call adds under `/h/dd`, the file `f.txt` is mirrored,
the source is untouched and the second run changes nothing. -/
theorem C5_witness :
    fsW.Wf ∧ EnvOk fsW envW ∧
    pyIsDir fsW envW (parsePath "/h/d/s") = true ∧
    pyIsDir fsW envW (parsePath "/h/dd") = true ∧
    (∃ fs1 fs2,
      sync_data fsW envW "/h/d/s" "/h/dd" "copy" = Except.ok ((true,
        msgCopiedDir (parsePath "/h/d/s")
          ⟨(parsePath "/h/dd").isAbs,
            (parsePath "/h/dd").comps ++ [pyName (parsePath "/h/d/s")]⟩), fs1) ∧
      sync_data fs1 envW "/h/d/s" "/h/dd" "copy" = Except.ok ((true,
        msgCopiedDir (parsePath "/h/d/s")
          ⟨(parsePath "/h/dd").isAbs,
            (parsePath "/h/dd").comps ++ [pyName (parsePath "/h/d/s")]⟩), fs2) ∧
      isDirFS fs1 ((parsePath "/h/dd").comps ++ [pyName (parsePath "/h/d/s")]) = true ∧
      (∀ c, isDirFS fs1 ((parsePath "/h/dd").comps ++ [c]) = true →
        c = pyName (parsePath "/h/d/s") ∨
          isDirFS fsW ((parsePath "/h/dd").comps ++ [c]) = true) ∧
      (∀ s, isDirFS fsW ((parsePath "/h/d/s").comps ++ s) = true →
        isDirFS fs1 (((parsePath "/h/dd").comps ++ [pyName (parsePath "/h/d/s")]) ++ s) =
          true) ∧
      (∀ s, isFileFS fsW ((parsePath "/h/d/s").comps ++ s) = true →
        lookupFile fs1 (((parsePath "/h/dd").comps ++ [pyName (parsePath "/h/d/s")]) ++ s) =
          lookupFile fsW ((parsePath "/h/d/s").comps ++ s)) ∧
      (∀ s, isDirFS fs1 ((parsePath "/h/d/s").comps ++ s) =
          isDirFS fsW ((parsePath "/h/d/s").comps ++ s) ∧
        lookupFile fs1 ((parsePath "/h/d/s").comps ++ s) =
          lookupFile fsW ((parsePath "/h/d/s").comps ++ s)) ∧
      FSequiv fs2 fs1) :=
  ⟨by decide, by decide, by rfl, by rfl,
    C5_copy_idempotent fsW envW "/h/d/s" "/h/dd" (by decide) (by decide)
      (by rfl) (by rfl) (by rfl) (by rfl) (by rfl) (by rfl) (by rfl) (by rfl)
      (by rfl) (by rfl) (by rfl)⟩

/-- C5 counterexample: `D = /h/d` is the parent of `S = /h/d/s` — an
existing, safe destination directory that is *not* nested in the source —
yet the copy target `D/name(S)` is `S` itself, `shutil.copytree` raises
`SameFileError` on `f.txt`, and already the first call fails instead of
succeeding: the claim's quantification over every such destination is
false. -/
theorem C5_counterexample :
    pyIsDir fsW envW (parsePath "/h/d/s") = true ∧
    is_safe_path fsW envW (parsePath "/h/d") = Except.ok true ∧
    pyIsDir fsW envW (parsePath "/h/d") = true ∧
    selfCheck fsW envW (parsePath "/h/d/s") (parsePath "/h/d") = Except.ok false ∧
    resOk? (sync_data fsW envW "/h/d/s" "/h/d" "copy") = some false ∧
    resMsg? (sync_data fsW envW "/h/d/s" "/h/d" "copy") =
      some (msgOpError "copy" (PyExc.shutilErr "errors collected while copying the tree")) :=
  ⟨by rfl, by rfl, by rfl, by rfl, by rfl, by rfl⟩

end DataSink
